import Mathlib

/-!
Verification of the three-terrain height-field, quadtree-LOD, tile-mesh and
vegetation subsystems, shallowly embedded from the JavaScript source.

Numeric values are modelled as real numbers (exact arithmetic); the seeded
gradient noise `noise.perlin2` is an external dependency of the sources and is
therefore a function parameter of every embedded definition.  A second
embedding of the two height samplers over `Option ℝ` models non-finite
floating-point values (`none` = NaN/±∞ coming out of the noise library, which
every arithmetic operation of the sampler pipeline propagates).
-/

namespace ThreeTerrain

/-- Gradient-noise sampler abstracted as a pure binary function
(`noise.perlin2` from the noisejs dependency, created from the seed). -/
def Noise : Type := ℝ → ℝ → ℝ

/-- Terrain configuration record destructured by `createHeightSampler`
(src/utils/terrain/heightmap.js).  The `seed` field is absorbed by the
abstract `Noise` parameter. -/
structure HeightConfig where
  baseHeightScale : ℝ
  continentScale : ℝ
  noiseScale : ℝ
  mountainScale : ℝ
  maxMountainHeight : ℝ
  spawnRadius : ℝ
  spawnTransitionRadius : ℝ
  waterLevel : ℝ
  waterMaxDepth : ℝ

/-- Cubic hermite smoothstep, from heightmap.js (`smoothstep`). -/
noncomputable def smoothstep (t : ℝ) : ℝ :=
  let c := max 0 (min 1 t)
  c * c * (3 - 2 * c)

/-- JavaScript `Math.sign`. -/
noncomputable def msign (a : ℝ) : ℝ :=
  if a < 0 then -1 else if 0 < a then 1 else 0

/-- Domain-warp offset for the X axis (heightmap.js line 61). -/
noncomputable def warpX (cfg : HeightConfig) (n : Noise) (x z : ℝ) : ℝ :=
  n (x * cfg.continentScale * 0.7 + 50) (z * cfg.continentScale * 0.7 + 50) * 800

/-- Domain-warp offset for the Z axis (heightmap.js line 62). -/
noncomputable def warpZ (cfg : HeightConfig) (n : Noise) (x z : ℝ) : ℝ :=
  n (x * cfg.continentScale * 0.7 + 150) (z * cfg.continentScale * 0.7 + 150) * 800

/-- Two-octave continental noise at the warped coordinates, plus the fixed
upward bias of 0.1 (heightmap.js lines 63-71). -/
noncomputable def continentalRaw (cfg : HeightConfig) (n : Noise) (x z : ℝ) : ℝ :=
  let wx := x + warpX cfg n x z
  let wz := z + warpZ cfg n x z
  n (wx * cfg.continentScale) (wz * cfg.continentScale) * 0.7 +
    n (wx * cfg.continentScale * 2.5) (wz * cfg.continentScale * 2.5) * 0.3 + 0.1

/-- Continental value after the spawn-area land guarantee
(heightmap.js lines 73-76: `if (dist < spawnRadius) continental = max(continental, 0.3)`). -/
noncomputable def continentalAdj (cfg : HeightConfig) (n : Noise) (x z : ℝ) : ℝ :=
  let c := continentalRaw cfg n x z
  if Real.sqrt (x * x + z * z) < cfg.spawnRadius then max c 0.3 else c

/-- Shoreline sharpness exponent base (heightmap.js lines 82-83). -/
noncomputable def shorelineSharp (cfg : HeightConfig) (n : Noise) (x z : ℝ) : ℝ :=
  2.25 + n (x * cfg.continentScale * 0.4 + 500) (z * cfg.continentScale * 0.4 + 500) * 1.75

/-- Shoreline-sharpness shaping `sign(c) * |c| ^ (1/sharpness)` applied to a
continental value `c` (heightmap.js line 84). -/
noncomputable def shapeShore (cfg : HeightConfig) (n : Noise) (x z c : ℝ) : ℝ :=
  msign c * |c| ^ (1 / shorelineSharp cfg n x z)

/-- Shaped continental value of the full sampler (with land guarantee). -/
noncomputable def continentalOf (cfg : HeightConfig) (n : Noise) (x z : ℝ) : ℝ :=
  shapeShore cfg n x z (continentalAdj cfg n x z)

/-- Three-octave base terrain variation (heightmap.js lines 87-90). -/
noncomputable def baseNoiseOf (cfg : HeightConfig) (n : Noise) (x z : ℝ) : ℝ :=
  n (x * cfg.noiseScale) (z * cfg.noiseScale) * 0.6 +
    n (x * cfg.noiseScale * 2.2) (z * cfg.noiseScale * 2.2) * 0.3 +
    n (x * cfg.noiseScale * 4.5) (z * cfg.noiseScale * 4.5) * 0.1

/-- Mountain ridge contribution given the shaped continental value `cont`
(heightmap.js lines 93-102). -/
noncomputable def mountainFrom (cfg : HeightConfig) (n : Noise) (x z cont : ℝ) : ℝ :=
  let inlandFactor := smoothstep (cont / 0.6)
  let ridge1 := 1 - |n (x * cfg.mountainScale) (z * cfg.mountainScale)|
  let ridge2 := 1 - |n (x * cfg.mountainScale * 1.8 + 100) (z * cfg.mountainScale * 1.8 + 100)|
  let ridgeNoise := ridge1 * ridge1 * 0.6 + ridge2 * ridge2 * 0.4
  let mountainMask := n (x * cfg.mountainScale * 0.3 + 500) (z * cfg.mountainScale * 0.3 + 500)
  let mountainFactor := smoothstep ((mountainMask + 0.3) / 0.8) * inlandFactor
  ridgeNoise * mountainFactor * (cfg.maxMountainHeight / cfg.baseHeightScale)

/-- Mountain contribution of the full sampler. -/
noncomputable def mountainHeightOf (cfg : HeightConfig) (n : Noise) (x z : ℝ) : ℝ :=
  mountainFrom cfg n x z (continentalOf cfg n x z)

/-- Continental multiplier `(waterMaxDepth + |waterLevel|) / baseHeightScale`
(heightmap.js line 110). -/
noncomputable def continentalMultiplier (cfg : HeightConfig) : ℝ :=
  (cfg.waterMaxDepth + |cfg.waterLevel|) / cfg.baseHeightScale

/-- Base elevation of the full sampler (heightmap.js line 111). -/
noncomputable def baseHeightOf (cfg : HeightConfig) (n : Noise) (x z : ℝ) : ℝ :=
  continentalOf cfg n x z * continentalMultiplier cfg

/-- Combination step (heightmap.js lines 110-132) from a shaped continental
value `cont`: base elevation, conditionally blended detail noise, and the
unconditionally added mountain contribution. -/
noncomputable def combineFrom (cfg : HeightConfig) (n : Noise) (x z cont : ℝ) : ℝ :=
  let baseHeight := cont * continentalMultiplier cfg
  let waterThreshold := cfg.waterLevel / cfg.baseHeightScale
  let safetyMargin : ℝ := 0.5
  let minSafeHeight := waterThreshold + safetyMargin
  let detail :=
    if baseHeight > minSafeHeight then baseNoiseOf cfg n x z * 0.5
    else if baseHeight > waterThreshold then
      max 0 (baseNoiseOf cfg n x z) * 0.5 * ((baseHeight - waterThreshold) / safetyMargin)
    else 0
  baseHeight + detail + mountainFrom cfg n x z cont

/-- Height of the full sampler just before the spawn-transition multiplier
(heightmap.js state of `height` at line 132). -/
noncomputable def preTransitionHeight (cfg : HeightConfig) (n : Noise) (x z : ℝ) : ℝ :=
  combineFrom cfg n x z (continentalOf cfg n x z)

/-- Spawn-transition blend (heightmap.js lines 135-139): inside the transition
ring the height is multiplied by a quintic smoothstep of the normalized radial
distance. -/
noncomputable def transitionApply (cfg : HeightConfig) (x z h : ℝ) : ℝ :=
  let distSq := x * x + z * z
  if distSq < cfg.spawnTransitionRadius * cfg.spawnTransitionRadius then
    let dist := Real.sqrt distSq
    let t := (dist - cfg.spawnRadius) / (cfg.spawnTransitionRadius - cfg.spawnRadius)
    let blend := t * t * t * (t * (t * 6 - 15) + 10)
    h * blend
  else h

/-- The height sampler returned by `createHeightSampler`
(src/utils/terrain/heightmap.js, `sampleHeight`), over exact reals.  The final
non-finite guard of the source cannot trigger over `ℝ` and is modelled
separately (`sampleHeightF`). -/
noncomputable def sampleHeight (cfg : HeightConfig) (n : Noise) (x z : ℝ) : ℝ :=
  let distSq := x * x + z * z
  if distSq < cfg.spawnRadius * cfg.spawnRadius then 0
  else transitionApply cfg x z (combineFrom cfg n x z (shapeShore cfg n x z (continentalAdj cfg n x z)))

/-- Modelled from the source with the spawn land-guarantee branch removed:
identical to `sampleHeight` except that the raw continental value is used
directly, skipping `if (dist < spawnRadius) continental = max(continental, 0.3)`.
Comparison definition for the refinement claim C10. -/
noncomputable def sampleHeightNG (cfg : HeightConfig) (n : Noise) (x z : ℝ) : ℝ :=
  let distSq := x * x + z * z
  if distSq < cfg.spawnRadius * cfg.spawnRadius then 0
  else transitionApply cfg x z (combineFrom cfg n x z (shapeShore cfg n x z (continentalRaw cfg n x z)))

/-- Concrete scenario configuration from the spec's testable-properties
section (seed excluded; the noise is abstract). -/
noncomputable def cfgScenario : HeightConfig :=
  ⟨4, 0.00007, 0.04, 0.001, 400, 200, 2500, 0, 50⟩

/-- Noise sampler that may produce non-finite floats: `none` models a
NaN/infinite output, which all arithmetic in the sampler pipeline propagates. -/
def NoiseF : Type := ℝ → ℝ → Option ℝ

/-- The body of `createHeightSampler`'s `sampleHeight`
(src/utils/terrain/heightmap.js) up to but excluding the final
`Number.isFinite` guard, over possibly-non-finite noise: any non-finite noise
sample makes the computed height non-finite (`none`). -/
noncomputable def sampleHeightPipeline (cfg : HeightConfig) (n : NoiseF) (x z : ℝ) :
    Option ℝ :=
  let distSq := x * x + z * z
  if distSq < cfg.spawnRadius * cfg.spawnRadius then some 0
  else
    let dist := Real.sqrt distSq
    do
    let nw1 ← n (x * cfg.continentScale * 0.7 + 50) (z * cfg.continentScale * 0.7 + 50)
    let nw2 ← n (x * cfg.continentScale * 0.7 + 150) (z * cfg.continentScale * 0.7 + 150)
    let wx := x + nw1 * 800
    let wz := z + nw2 * 800
    let nc1 ← n (wx * cfg.continentScale) (wz * cfg.continentScale)
    let nc2 ← n (wx * cfg.continentScale * 2.5) (wz * cfg.continentScale * 2.5)
    let c0 := nc1 * 0.7 + nc2 * 0.3 + 0.1
    let c1 := if dist < cfg.spawnRadius then max c0 0.3 else c0
    let sv ← n (x * cfg.continentScale * 0.4 + 500) (z * cfg.continentScale * 0.4 + 500)
    let sharp := 2.25 + sv * 1.75
    let cont := msign c1 * |c1| ^ (1 / sharp)
    let nb1 ← n (x * cfg.noiseScale) (z * cfg.noiseScale)
    let nb2 ← n (x * cfg.noiseScale * 2.2) (z * cfg.noiseScale * 2.2)
    let nb3 ← n (x * cfg.noiseScale * 4.5) (z * cfg.noiseScale * 4.5)
    let baseNoise := nb1 * 0.6 + nb2 * 0.3 + nb3 * 0.1
    let inlandFactor := smoothstep (cont / 0.6)
    let nr1 ← n (x * cfg.mountainScale) (z * cfg.mountainScale)
    let nr2 ← n (x * cfg.mountainScale * 1.8 + 100) (z * cfg.mountainScale * 1.8 + 100)
    let ridge1 := 1 - |nr1|
    let ridge2 := 1 - |nr2|
    let ridgeNoise := ridge1 * ridge1 * 0.6 + ridge2 * ridge2 * 0.4
    let nm ← n (x * cfg.mountainScale * 0.3 + 500) (z * cfg.mountainScale * 0.3 + 500)
    let mountainFactor := smoothstep ((nm + 0.3) / 0.8) * inlandFactor
    let mountainHeight := ridgeNoise * mountainFactor * (cfg.maxMountainHeight / cfg.baseHeightScale)
    let baseHeight := cont * ((cfg.waterMaxDepth + |cfg.waterLevel|) / cfg.baseHeightScale)
    let waterThreshold := cfg.waterLevel / cfg.baseHeightScale
    let minSafeHeight := waterThreshold + 0.5
    let detail :=
      if baseHeight > minSafeHeight then baseNoise * 0.5
      else if baseHeight > waterThreshold then
        max 0 baseNoise * 0.5 * ((baseHeight - waterThreshold) / 0.5)
      else 0
    let h0 := baseHeight + detail + mountainHeight
    let h1 :=
      if distSq < cfg.spawnTransitionRadius * cfg.spawnTransitionRadius then
        let t := (dist - cfg.spawnRadius) / (cfg.spawnTransitionRadius - cfg.spawnRadius)
        h0 * (t * t * t * (t * (t * 6 - 15) + 10))
      else h0
    pure h1

/-- The complete `sampleHeight` of heightmap.js over possibly-non-finite
noise: the final guard substitutes 0 whenever the computed height is
non-finite. -/
noncomputable def sampleHeightF (cfg : HeightConfig) (n : NoiseF) (x z : ℝ) : Option ℝ :=
  match sampleHeightPipeline cfg n x z with
  | none => some 0
  | some h => some h

/-- Modelled from the spec: `WATER_LEVEL` is imported from src/config/water,
which is not part of the source tree; the comment in heightSampler.js states
the water level is -1. -/
noncomputable def WATER_LEVEL : ℝ := -1

/-- Terrain configuration fields destructured by `createTerrainHelpers`
(src/utils/terrain/heightSampler.js). -/
structure TerrainHelperConfig where
  baseHeightScale : ℝ
  noiseScale : ℝ
  continentScale : ℝ
  mountainScale : ℝ
  maxMountainHeight : ℝ
  spawnRadius : ℝ
  spawnTransitionRadius : ℝ

/-- Water body configuration of `createTerrainHelpers` (default maxDepth 50). -/
structure WaterBodyConfig where
  maxDepth : ℝ

/-- The `getNormalizedHeight` closure of `createTerrainHelpers`
(src/utils/terrain/heightSampler.js), over possibly-non-finite noise.  Unlike
heightmap.js's `sampleHeight`, this function returns `height` directly with no
final finiteness guard. -/
noncomputable def getNormalizedHeightF (n : NoiseF) (tc : TerrainHelperConfig)
    (wc : WaterBodyConfig) (x z : ℝ) : Option ℝ :=
  let distSq := x * x + z * z
  if distSq < tc.spawnRadius * tc.spawnRadius then some 0
  else
    let dist := Real.sqrt distSq
    do
    let nw1 ← n (x * tc.continentScale * 0.7 + 50) (z * tc.continentScale * 0.7 + 50)
    let nw2 ← n (x * tc.continentScale * 0.7 + 150) (z * tc.continentScale * 0.7 + 150)
    let wx := x + nw1 * 800
    let wz := z + nw2 * 800
    let nc1 ← n (wx * tc.continentScale) (wz * tc.continentScale)
    let nc2 ← n (wx * tc.continentScale * 2.5) (wz * tc.continentScale * 2.5)
    let c0 := nc1 * 0.7 + nc2 * 0.3 + 0.1
    let c1 := if dist < tc.spawnRadius then max c0 0.3 else c0
    let sv ← n (x * tc.continentScale * 0.4 + 500) (z * tc.continentScale * 0.4 + 500)
    let sharp := 1.85 + sv * 5.0
    let cont := msign c1 * |c1| ^ (1 / sharp)
    let nb1 ← n (x * tc.noiseScale) (z * tc.noiseScale)
    let nb2 ← n (x * tc.noiseScale * 2.2) (z * tc.noiseScale * 2.2)
    let nb3 ← n (x * tc.noiseScale * 4.5) (z * tc.noiseScale * 4.5)
    let baseNoise := nb1 * 0.6 + nb2 * 0.3 + nb3 * 0.1
    let inlandFactor := smoothstep (cont / 0.6)
    let nr1 ← n (x * tc.mountainScale) (z * tc.mountainScale)
    let nr2 ← n (x * tc.mountainScale * 1.8 + 100) (z * tc.mountainScale * 1.8 + 100)
    let ridge1 := 1 - |nr1|
    let ridge2 := 1 - |nr2|
    let ridgeNoise := ridge1 * ridge1 * 0.6 + ridge2 * ridge2 * 0.4
    let nm ← n (x * tc.mountainScale * 0.3 + 500) (z * tc.mountainScale * 0.3 + 500)
    let mountainFactor := smoothstep ((nm + 0.3) / 0.8) * inlandFactor
    let mountainHeight := ridgeNoise * mountainFactor * (tc.maxMountainHeight / tc.baseHeightScale)
    let baseHeight := cont * ((wc.maxDepth + |WATER_LEVEL|) / tc.baseHeightScale)
    let waterThreshold : ℝ := -0.25
    let minSafeHeight := waterThreshold + 0.5
    let detail :=
      if baseHeight > minSafeHeight then baseNoise * 0.5
      else if baseHeight > waterThreshold then
        max 0 baseNoise * 0.5 * ((baseHeight - waterThreshold) / 0.5)
      else 0
    let h0 := baseHeight + detail + mountainHeight
    let h1 :=
      if distSq < tc.spawnTransitionRadius * tc.spawnTransitionRadius then
        let t := (dist - tc.spawnRadius) / (tc.spawnTransitionRadius - tc.spawnRadius)
        h0 * (t * t * t * (t * (t * 6 - 15) + 10))
      else h0
    pure h1

/-- Terrain helper config matching the concrete scenario. -/
noncomputable def tcScenario : TerrainHelperConfig :=
  ⟨4, 0.04, 0.00007, 0.001, 400, 200, 2500⟩

/-- Quadtree node (src/unnamed/part_002, `QuadtreeNode`): `children` is either
null (a leaf) or exactly four nodes ordered NW/NE/SW/SE.  The numeric type is
generic over a linear ordered field so the structure can be evaluated exactly. -/
inductive QuadtreeNode (K : Type) where
  | leaf (centerX centerZ size : K) (lod : ℤ)
  | branch (centerX centerZ size : K) (lod : ℤ) (nw ne sw se : QuadtreeNode K)

section Quadtree

variable {K : Type} [LinearOrderedField K]

/-- Node center X accessor. -/
def nodeCenterX : QuadtreeNode K → K
  | .leaf cx _ _ _ => cx
  | .branch cx _ _ _ _ _ _ _ => cx

/-- Node center Z accessor. -/
def nodeCenterZ : QuadtreeNode K → K
  | .leaf _ cz _ _ => cz
  | .branch _ cz _ _ _ _ _ _ => cz

/-- Node size accessor. -/
def nodeSize : QuadtreeNode K → K
  | .leaf _ _ s _ => s
  | .branch _ _ s _ _ _ _ _ => s

/-- Node LOD accessor. -/
def nodeLod : QuadtreeNode K → ℤ
  | .leaf _ _ _ l => l
  | .branch _ _ _ l _ _ _ _ => l

/-- Whether the node is currently a leaf (`children === null`). -/
def isLeafNode : QuadtreeNode K → Bool
  | .leaf _ _ _ _ => true
  | .branch _ _ _ _ _ _ _ _ => false

/-- `QuadtreeNode.shouldSubdivide` (src/unnamed/part_002 lines 33-47): never
subdivide at or below the minimum size; otherwise split when the squared
viewer distance is below the squared split threshold `size * splitFactor`. -/
def shouldSubdivide (cx cz s vx vz splitFactor minSize : K) : Bool :=
  if s ≤ minSize then false
  else
    let dx := vx - cx
    let dz := vz - cz
    let distSq := dx * dx + dz * dz
    let splitDist := s * splitFactor
    decide (distSq < splitDist * splitDist)

/-- `QuadtreeNode.shouldMerge` (src/unnamed/part_002 lines 53-63): merge when
the squared viewer distance exceeds the squared merge threshold
`size * splitFactor * hysteresis`. -/
def shouldMerge (cx cz s vx vz splitFactor hysteresis : K) : Bool :=
  let dx := vx - cx
  let dz := vz - cz
  let distSq := dx * dx + dz * dz
  let mergeDist := s * splitFactor * hysteresis
  decide (mergeDist * mergeDist < distSq)

/-- `QuadtreeNode.subdivide` (src/unnamed/part_002 lines 68-83): four children
with halved size and decremented lod at the quarter-size offsets. -/
def subdivideChildren (cx cz s : K) (l : ℤ) :
    QuadtreeNode K × QuadtreeNode K × QuadtreeNode K × QuadtreeNode K :=
  let halfSize := s / 2
  let quarterSize := halfSize / 2
  let childLod := l - 1
  (.leaf (cx - quarterSize) (cz + quarterSize) halfSize childLod,
    .leaf (cx + quarterSize) (cz + quarterSize) halfSize childLod,
    .leaf (cx - quarterSize) (cz - quarterSize) halfSize childLod,
    .leaf (cx + quarterSize) (cz - quarterSize) halfSize childLod)

/-- `QuadtreeNode.update` (src/unnamed/part_002 lines 96-117).  The JavaScript
recursion is bounded only by the call stack; the embedding makes the recursion
depth explicit with a fuel parameter (out of fuel, the node is returned
unchanged).  A subdivided node merges or recursively updates its children; a
leaf that should subdivide creates four children and immediately updates them
against the same viewer position. -/
def update : ℕ → K → K → K → K → K → QuadtreeNode K → QuadtreeNode K
  | 0, _, _, _, _, _, t => t
  | fuel + 1, vx, vz, sf, hy, ms, QuadtreeNode.leaf cx cz s l =>
    if shouldSubdivide cx cz s vx vz sf ms then
      match subdivideChildren cx cz s l with
      | (nw, ne, sw, se) =>
        QuadtreeNode.branch cx cz s l (update fuel vx vz sf hy ms nw)
          (update fuel vx vz sf hy ms ne) (update fuel vx vz sf hy ms sw)
          (update fuel vx vz sf hy ms se)
    else QuadtreeNode.leaf cx cz s l
  | fuel + 1, vx, vz, sf, hy, ms, QuadtreeNode.branch cx cz s l nw ne sw se =>
    if shouldMerge cx cz s vx vz sf hy then QuadtreeNode.leaf cx cz s l
    else
      QuadtreeNode.branch cx cz s l (update fuel vx vz sf hy ms nw)
        (update fuel vx vz sf hy ms ne) (update fuel vx vz sf hy ms sw)
        (update fuel vx vz sf hy ms se)

end Quadtree

/-- Concrete subdivided quadtree node used to witness the hysteresis theorem. -/
noncomputable def qtWitnessNode : QuadtreeNode ℝ :=
  QuadtreeNode.branch 100 0 32 3 (.leaf 92 8 16 2) (.leaf 108 8 16 2)
    (.leaf 92 (-8) 16 2) (.leaf 108 (-8) 16 2)

/-- JavaScript `| 0` (ToInt32) applied to an exact integer. -/
def toInt32 (n : ℤ) : ℤ := (n + 2 ^ 31) % 2 ^ 32 - 2 ^ 31

/-- `hashCoords` (src/utils/seededRandom.js): a 32-bit linear-combination hash
of the grid coordinates and salt, made nonnegative with `Math.abs`. -/
def hashCoords (x z salt : ℤ) : ℤ :=
  |toInt32 (x * 374761393 + z * 668265263 + salt * 1013904223)|

/-- Mulberry32 state advance `state = (state + 0x6d2b79f5) | 0`
(src/utils/seededRandom.js), as an unsigned 32-bit pattern. -/
def mulberryS (state : ℕ) : ℕ := (state + 0x6d2b79f5) % 2 ^ 32

/-- Mulberry32 first mix `t = Math.imul(state ^ (state >>> 15), state | 1)`. -/
def mulberryT1 (s : ℕ) : ℕ := (s ^^^ (s >>> 15)) * (s ||| 1) % 2 ^ 32

/-- Mulberry32 second mix `t ^= t + Math.imul(t ^ (t >>> 7), t | 61)`. -/
def mulberryT2 (t1 : ℕ) : ℕ :=
  t1 ^^^ ((t1 + (t1 ^^^ (t1 >>> 7)) * (t1 ||| 61) % 2 ^ 32) % 2 ^ 32)

/-- Mulberry32 output word `(t ^ (t >>> 14)) >>> 0`. -/
def mulberryOut (t2 : ℕ) : ℕ := t2 ^^^ (t2 >>> 14)

/-- One step of the mulberry32 generator (src/utils/seededRandom.js,
`createSeededRandom`): returns the updated 32-bit state together with the raw
32-bit output word; the random number handed to callers is the output word
divided by 2^32 (`randVal`).  All values are unsigned 32-bit patterns. -/
def mulberryNext (state : ℕ) : ℕ × ℕ :=
  let s := mulberryS state
  (s, mulberryOut (mulberryT2 (mulberryT1 s)))

/-- Random number in [0, 1) produced from a mulberry32 output word. -/
noncomputable def randVal (o : ℕ) : ℝ := (o : ℝ) / 4294967296

/-- Min/max range from the vegetation type configuration. -/
structure RangeCfg where
  min : ℝ
  max : ℝ

/-- Vegetation type configuration fields destructured by
`generateCellVegetation` (src/unnamed/part_001). -/
structure VegTypeConfig where
  scale : RangeCfg
  slope : RangeCfg
  height : RangeCfg
  density : ℝ

/-- The terrain helper functions used by vegetation placement: world height
and the Y component of the surface normal (the only component read). -/
structure TerrainHelperFns where
  getWorldHeight : ℝ → ℝ → ℝ
  getNormalY : ℝ → ℝ → ℝ

/-- One vegetation instance transform: position, yaw-only rotation and a
uniform scale (the data composed into the instance matrix by the source's
scratch `Object3D`). -/
structure VegInstance where
  posX : ℝ
  posY : ℝ
  posZ : ℝ
  rotY : ℝ
  scale : ℝ

/-- Cell-grid coordinate `Math.floor(cellCenter / minTileSize)`. -/
noncomputable def cellGridCoord (c m : ℝ) : ℤ := ⌊c / m⌋

/-- Deterministic cell seed `hashCoords(gridX, gridZ, 88888 + typeIndex*1000)`
(src/unnamed/part_001 line 46). -/
noncomputable def cellSeedOf (cellX cellZ m : ℝ) (typeIndex : ℤ) : ℤ :=
  hashCoords (cellGridCoord cellX m) (cellGridCoord cellZ m) (88888 + typeIndex * 1000)

/-- Initial mulberry32 state for a cell. -/
noncomputable def cellRng0 (cellX cellZ m : ℝ) (typeIndex : ℤ) : ℕ :=
  (cellSeedOf cellX cellZ m typeIndex).toNat

/-- Expected instance count `(density || 1.0) * (cellArea / 1,000,000)`
(src/unnamed/part_001 lines 56-57; `||` treats a zero density as 1.0). -/
noncomputable def expectedCountOf (density m : ℝ) : ℝ :=
  (if density = 0 then 1 else density) * (m * m / 1000000)

/-- Jitter factor `0.8 + random() * 0.4` from the first stream draw. -/
noncomputable def cellJitterFactor (cellX cellZ m : ℝ) (typeIndex : ℤ) : ℝ :=
  0.8 + randVal (mulberryNext (cellRng0 cellX cellZ m typeIndex)).2 * 0.4

/-- Jittered target count (src/unnamed/part_001 line 60). -/
noncomputable def cellTarget (cellX cellZ m : ℝ) (typeIndex : ℤ) (density : ℝ) : ℝ :=
  expectedCountOf density m * cellJitterFactor cellX cellZ m typeIndex

/-- Integer target count: floor of the target plus a probabilistic 1 drawn
against the fractional remainder (src/unnamed/part_001 lines 64-67). -/
noncomputable def cellCountVal (cellX cellZ m : ℝ) (typeIndex : ℤ) (density : ℝ) : ℤ :=
  let t := cellTarget cellX cellZ m typeIndex density
  let o2 := (mulberryNext (mulberryNext (cellRng0 cellX cellZ m typeIndex)).1).2
  ⌊t⌋ + (if randVal o2 < t - ⌊t⌋ then 1 else 0)

/-- The rejection-sampling placement loop of `generateCellVegetation`
(src/unnamed/part_001 lines 72-101): while fewer than `count` instances are
accepted and attempts remain, draw a position, reject by height then by
normal-Y band, and on acceptance draw scale and yaw and append a transform.
The `attempts < maxAttempts` bound of the source is the explicit fuel. -/
noncomputable def placeLoop (helpers : TerrainHelperFns) (config : VegTypeConfig)
    (minX minZ m slopeMinNY slopeMaxNY : ℝ) (count : ℤ) :
    ℕ → ℕ → List VegInstance → List VegInstance
  | 0, _, acc => acc
  | fuel + 1, rng, acc =>
    if (acc.length : ℤ) < count then
      let rA := (mulberryNext rng).1
      let vegX := minX + randVal (mulberryNext rng).2 * m
      let rB := (mulberryNext rA).1
      let vegZ := minZ + randVal (mulberryNext rA).2 * m
      let vegY := helpers.getWorldHeight vegX vegZ
      if vegY < config.height.min ∨ vegY > config.height.max then
        placeLoop helpers config minX minZ m slopeMinNY slopeMaxNY count fuel rB acc
      else
        let ny := helpers.getNormalY vegX vegZ
        if ny < slopeMinNY ∨ ny > slopeMaxNY then
          placeLoop helpers config minX minZ m slopeMinNY slopeMaxNY count fuel rB acc
        else
          let rC := (mulberryNext rB).1
          let vegScale := config.scale.min + randVal (mulberryNext rB).2 *
            (config.scale.max - config.scale.min)
          let rD := (mulberryNext rC).1
          let rotY := randVal (mulberryNext rC).2 * Real.pi * 2
          placeLoop helpers config minX minZ m slopeMinNY slopeMaxNY count fuel rD
            (acc ++ [⟨vegX, vegY, vegZ, rotY, vegScale⟩])
    else acc

/-- `generateCellVegetation` (src/unnamed/part_001 lines 30-109): the
deterministic vegetation instance list of one minTileSize cell. -/
noncomputable def generateCellVegetation (cellX cellZ : ℝ) (helpers : TerrainHelperFns)
    (config : VegTypeConfig) (typeIndex : ℤ) (minTileSize : ℝ) : List VegInstance :=
  let halfCell := minTileSize / 2
  let minX := cellX - halfCell
  let minZ := cellZ - halfCell
  let slopeMinNormalY := 1 - config.slope.max
  let slopeMaxNormalY := 1 - config.slope.min
  let count := cellCountVal cellX cellZ minTileSize typeIndex config.density
  let r2 := (mulberryNext (mulberryNext (cellRng0 cellX cellZ minTileSize typeIndex)).1).1
  if count = 0 then []
  else
    placeLoop helpers config minX minZ minTileSize slopeMinNormalY slopeMaxNormalY count
      (count * 10).toNat r2 []

/-- Quadtree tile node fields read by `generateVegetationForType`. -/
structure TileNode where
  centerX : ℝ
  centerZ : ℝ
  size : ℝ

/-- JavaScript `Math.round`. -/
noncomputable def jround (x : ℝ) : ℤ := ⌊x + 1 / 2⌋

/-- The minTileSize-aligned cell centers enumerated by the tile loop of
`generateVegetationForType` (src/unnamed/part_001 lines 132-145), in loop
order (outer cx, inner cz). -/
noncomputable def tileCellCenters (node : TileNode) (m : ℝ) : List (ℝ × ℝ) :=
  let halfSize := node.size / 2
  let minX := node.centerX - halfSize
  let minZ := node.centerZ - halfSize
  let cellsPerSide := (jround (node.size / m)).toNat
  (List.range cellsPerSide).flatMap fun (cx : ℕ) =>
    (List.range cellsPerSide).map fun (cz : ℕ) =>
      (minX + ((cx : ℝ) + 0.5) * m, minZ + ((cz : ℝ) + 0.5) * m)

/-- `generateVegetationForType` (src/unnamed/part_001 lines 125-158):
concatenation of the per-cell vegetation over the enumerated cells.  The
`lodLevel` parameter is kept for API compatibility and is unused, as in the
source; `minTileSize` is read from the store by the source and is a parameter
here. -/
noncomputable def generateVegetationForType (node : TileNode) (helpers : TerrainHelperFns)
    (lodLevel : ℤ) (config : VegTypeConfig) (typeIndex : ℤ) (minTileSize : ℝ) :
    List VegInstance :=
  (tileCellCenters node minTileSize).flatMap fun c =>
    generateCellVegetation c.1 c.2 helpers config typeIndex minTileSize

/-- Axis along which a stitched edge vertex interpolates
(`getStitchedHeight`'s `axis` argument in src/hooks/useTerrainGeometry.js). -/
inductive StitchAxis where
  | x
  | z
deriving DecidableEq

/-- Per-edge stitch info entry (`needsStitch`, `neighborStep`), produced by
`getEdgeStitchInfo` (src/unnamed/part_002). -/
structure StitchEdge (K : Type) where
  needsStitch : Bool
  neighborStep : K

/-- Edge stitch info for the four cardinal edges. -/
structure EdgeStitchInfo (K : Type) where
  north : StitchEdge K
  south : StitchEdge K
  east : StitchEdge K
  west : StitchEdge K

/-- Tile node geometry read by `useTerrainGeometry` (`size, centerX, centerZ`). -/
structure TileSpec (K : Type) where
  centerX : K
  centerZ : K
  size : K

section Geometry

variable {K : Type} [LinearOrderedField K] [FloorRing K]

/-- Tile origin `centerX - halfSize` (useTerrainGeometry.js line 30). -/
def tileOriginX (t : TileSpec K) : K := t.centerX - t.size / 2

/-- Tile origin `centerZ - halfSize` (useTerrainGeometry.js line 31). -/
def tileOriginZ (t : TileSpec K) : K := t.centerZ - t.size / 2

/-- Grid step `size / segments` (useTerrainGeometry.js line 28). -/
def tileStep (t : TileSpec K) (segments : ℕ) : K := t.size / segments

/-- World X coordinate of grid column `i`. -/
def vertexWorldX (t : TileSpec K) (segments i : ℕ) : K :=
  tileOriginX t + i * tileStep t segments

/-- World Z coordinate of grid row `j`. -/
def vertexWorldZ (t : TileSpec K) (segments j : ℕ) : K :=
  tileOriginZ t + j * tileStep t segments

/-- `getStitchedHeight` (useTerrainGeometry.js lines 64-84): linear
interpolation of the height field between the two neighbor-grid points
bracketing the world coordinate along the stitched axis, scaled by
baseHeightScale. -/
def getStitchedHeight (H : K → K → K) (bhs worldX worldZ neighborStep : K) :
    StitchAxis → K
  | StitchAxis.x =>
    let x0 := (⌊worldX / neighborStep⌋ : K) * neighborStep
    let x1 := x0 + neighborStep
    let t := (worldX - x0) / neighborStep
    (H x0 worldZ * (1 - t) + H x1 worldZ * t) * bhs
  | StitchAxis.z =>
    let z0 := (⌊worldZ / neighborStep⌋ : K) * neighborStep
    let z1 := z0 + neighborStep
    let t := (worldZ - z0) / neighborStep
    (H worldX z0 * (1 - t) + H worldX z1 * t) * bhs

/-- The per-vertex stitch decision cached in `stitchCache`
(useTerrainGeometry.js lines 88-107): west, east, south then north priority;
west/east edges interpolate along Z, south/north along X. -/
def stitchFor (edge : EdgeStitchInfo K) (segments i j : ℕ) : Option (K × StitchAxis) :=
  if i = 0 ∧ edge.west.needsStitch then some (edge.west.neighborStep, StitchAxis.z)
  else if i = segments ∧ edge.east.needsStitch then some (edge.east.neighborStep, StitchAxis.z)
  else if j = 0 ∧ edge.south.needsStitch then some (edge.south.neighborStep, StitchAxis.x)
  else if j = segments ∧ edge.north.needsStitch then some (edge.north.neighborStep, StitchAxis.x)
  else none

/-- Emitted vertex height of the first pass (useTerrainGeometry.js lines
119-151): stitched vertices interpolate at the neighbor step, all others
sample the height field directly and scale by baseHeightScale. -/
def vertexHeight (H : K → K → K) (bhs : K) (t : TileSpec K) (segments : ℕ)
    (edge : EdgeStitchInfo K) (i j : ℕ) : K :=
  match stitchFor edge segments i j with
  | some (s, ax) =>
    getStitchedHeight H bhs (vertexWorldX t segments i) (vertexWorldZ t segments j) s ax
  | none => H (vertexWorldX t segments i) (vertexWorldZ t segments j) * bhs

/-- The cached normalized height (`heightCache`, lines 128 and 140): the
stitched height divided back by baseHeightScale, or the raw sample. -/
def heightCacheVal (H : K → K → K) (bhs : K) (t : TileSpec K) (segments : ℕ)
    (edge : EdgeStitchInfo K) (i j : ℕ) : K :=
  match stitchFor edge segments i j with
  | some (s, ax) =>
    getStitchedHeight H bhs (vertexWorldX t segments i) (vertexWorldZ t segments j) s ax / bhs
  | none => H (vertexWorldX t segments i) (vertexWorldZ t segments j)

/-- Per-vertex water depth (useTerrainGeometry.js lines 162-168):
`waterLevel - height` when the vertex is underwater, else 0. -/
def depthAt (H : K → K → K) (bhs : K) (t : TileSpec K) (segments : ℕ)
    (edge : EdgeStitchInfo K) (waterLevel : K) (i j : ℕ) : K :=
  let h := vertexHeight H bhs t segments edge i j
  if h < waterLevel then waterLevel - h else 0

/-- The `hasWater` flag (line 163): set when some grid vertex lies strictly
below the water level. -/
def tileHasWater (H : K → K → K) (bhs : K) (t : TileSpec K) (segments : ℕ)
    (edge : EdgeStitchInfo K) (waterLevel : K) : Bool :=
  (List.range (segments + 1)).any fun j =>
    (List.range (segments + 1)).any fun i =>
      decide (vertexHeight H bhs t segments edge i j < waterLevel)

/-- Linear vertex index `i + sampleCount * j`. -/
def vIndex (segments i j : ℕ) : ℕ := j * (segments + 1) + i

/-- The two triangles of the grid quad at `(i, j)` in emission order
(useTerrainGeometry.js lines 315-328). -/
def quadTriangles (segments i j : ℕ) : List ℕ :=
  let a := vIndex segments i j
  let b := a + 1
  let c := a + (segments + 1)
  let d := c + 1
  [a, c, b, b, c, d]

/-- A quad is wet when at least one of its four corners has positive water
depth (useTerrainGeometry.js line 321). -/
def wetQuad (H : K → K → K) (bhs : K) (t : TileSpec K) (segments : ℕ)
    (edge : EdgeStitchInfo K) (waterLevel : K) (i j : ℕ) : Bool :=
  decide (0 < depthAt H bhs t segments edge waterLevel i j) ||
    decide (0 < depthAt H bhs t segments edge waterLevel (i + 1) j) ||
    decide (0 < depthAt H bhs t segments edge waterLevel i (j + 1)) ||
    decide (0 < depthAt H bhs t segments edge waterLevel (i + 1) (j + 1))

/-- The water index buffer (useTerrainGeometry.js lines 306-331): the two
triangles of every wet quad, in row-major loop order. -/
def waterIndices (H : K → K → K) (bhs : K) (t : TileSpec K) (segments : ℕ)
    (edge : EdgeStitchInfo K) (waterLevel : K) : List ℕ :=
  (List.range segments).flatMap fun j =>
    (List.range segments).flatMap fun i =>
      if wetQuad H bhs t segments edge waterLevel i j then quadTriangles segments i j
      else []

/-- The optional water geometry, modelled by its index buffer: built only when
the tile has water, and kept only when at least one triangle was emitted
(useTerrainGeometry.js lines 279-343, `if (hasWater)` and
`if (waterIdx > 0)`). -/
def waterGeometry (H : K → K → K) (bhs : K) (t : TileSpec K) (segments : ℕ)
    (edge : EdgeStitchInfo K) (waterLevel : K) : Option (List ℕ) :=
  if tileHasWater H bhs t segments edge waterLevel then
    let wi := waterIndices H bhs t segments edge waterLevel
    if 0 < wi.length then some wi else none
  else none

/-- The `hL`/`hR` pair of the normal pass (useTerrainGeometry.js lines
196-211): west-edge vertices sample one step outside the tile to the west,
east-edge vertices to the east, interior vertices use the cached heights. -/
def normalPairX (H : K → K → K) (bhs : K) (t : TileSpec K) (segments : ℕ)
    (edge : EdgeStitchInfo K) (i j : ℕ) : K × K :=
  if i = 0 then
    (H (vertexWorldX t segments i - tileStep t segments) (vertexWorldZ t segments j) * bhs,
      heightCacheVal H bhs t segments edge (i + 1) j * bhs)
  else if i = segments then
    (heightCacheVal H bhs t segments edge (i - 1) j * bhs,
      H (vertexWorldX t segments i + tileStep t segments) (vertexWorldZ t segments j) * bhs)
  else
    (heightCacheVal H bhs t segments edge (i - 1) j * bhs,
      heightCacheVal H bhs t segments edge (i + 1) j * bhs)

/-- The `hD`/`hU` pair of the normal pass (useTerrainGeometry.js lines
213-228). -/
def normalPairZ (H : K → K → K) (bhs : K) (t : TileSpec K) (segments : ℕ)
    (edge : EdgeStitchInfo K) (i j : ℕ) : K × K :=
  if j = 0 then
    (H (vertexWorldX t segments i) (vertexWorldZ t segments j - tileStep t segments) * bhs,
      heightCacheVal H bhs t segments edge i (j + 1) * bhs)
  else if j = segments then
    (heightCacheVal H bhs t segments edge i (j - 1) * bhs,
      H (vertexWorldX t segments i) (vertexWorldZ t segments j + tileStep t segments) * bhs)
  else
    (heightCacheVal H bhs t segments edge i (j - 1) * bhs,
      heightCacheVal H bhs t segments edge i (j + 1) * bhs)

/-- Central-difference gradient `(dhdx, dhdz)` of the normal pass
(useTerrainGeometry.js lines 231-232), with `dx = dz = 2 * step`. -/
def gradAt (H : K → K → K) (bhs : K) (t : TileSpec K) (segments : ℕ)
    (edge : EdgeStitchInfo K) (i j : ℕ) : K × K :=
  (((normalPairX H bhs t segments edge i j).2 - (normalPairX H bhs t segments edge i j).1) /
      (2 * tileStep t segments),
    ((normalPairZ H bhs t segments edge i j).2 - (normalPairZ H bhs t segments edge i j).1) /
      (2 * tileStep t segments))

end Geometry

/-- Normalized per-vertex normal (useTerrainGeometry.js lines 234-242):
`(-dhdx, 1, -dhdz)` scaled by the inverse length. -/
noncomputable def normalAt (H : ℝ → ℝ → ℝ) (bhs : ℝ) (t : TileSpec ℝ) (segments : ℕ)
    (edge : EdgeStitchInfo ℝ) (i j : ℕ) : ℝ × ℝ × ℝ :=
  let g := gradAt H bhs t segments edge i j
  let nx := -g.1
  let ny : ℝ := 1
  let nz := -g.2
  let invLen := 1 / Real.sqrt (nx * nx + ny * ny + nz * nz)
  (nx * invLen, ny * invLen, nz * invLen)

/-- Linear height field used by the C1 witness. -/
def linH : ℚ → ℚ → ℚ := fun a b => a + b

/-- Edge stitch info with only the south edge flagged (step 1), used by the
C1 witness. -/
def edgeWitness : EdgeStitchInfo ℚ := ⟨⟨false, 2⟩, ⟨true, 1⟩, ⟨false, 2⟩, ⟨false, 2⟩⟩

/-- Edge stitch info with no stitching, over ℚ. -/
def edgeNoneQ : EdgeStitchInfo ℚ := ⟨⟨false, 1⟩, ⟨false, 1⟩, ⟨false, 1⟩, ⟨false, 1⟩⟩

/-- Edge stitch info with no stitching, over ℝ. -/
noncomputable def edgeNoneR : EdgeStitchInfo ℝ := ⟨⟨false, 1⟩, ⟨false, 1⟩, ⟨false, 1⟩, ⟨false, 1⟩⟩

/-- Cubic height field used by the C7 counterexample. -/
noncomputable def cubeH : ℝ → ℝ → ℝ := fun a _ => a ^ 3

end ThreeTerrain

namespace ThreeTerrain

/-- C2 helper: squares are ordered like their nonnegative roots. -/
theorem sq_lt_sq_of_nonneg_of_lt {a b : ℝ} (ha : 0 ≤ a) (h : a < b) : a * a < b * b :=
  mul_self_lt_mul_self ha h

/-- C10: removing the spawn land-guarantee branch does not change the sampler:
every input that reaches the continental computation has `dist ≥ spawnRadius`,
so the branch is dead code and the two samplers are extensionally equal. -/
theorem C10_land_guarantee_dead (cfg : HeightConfig) (n : Noise) (x z : ℝ) :
    sampleHeight cfg n x z = sampleHeightNG cfg n x z := by
  unfold sampleHeight sampleHeightNG
  by_cases h : x * x + z * z < cfg.spawnRadius * cfg.spawnRadius
  · simp [h]
  · simp only [h, if_false]
    have hadj : continentalAdj cfg n x z = continentalRaw cfg n x z := by
      unfold continentalAdj
      have hnot : ¬ Real.sqrt (x * x + z * z) < cfg.spawnRadius := by
        intro hlt
        have hd0 : (0 : ℝ) ≤ Real.sqrt (x * x + z * z) := Real.sqrt_nonneg _
        have hsq : Real.sqrt (x * x + z * z) * Real.sqrt (x * x + z * z) = x * x + z * z :=
          Real.mul_self_sqrt (add_nonneg (mul_self_nonneg x) (mul_self_nonneg z))
        have : x * x + z * z < cfg.spawnRadius * cfg.spawnRadius := by
          calc x * x + z * z = Real.sqrt (x * x + z * z) * Real.sqrt (x * x + z * z) := hsq.symm
            _ < cfg.spawnRadius * cfg.spawnRadius := sq_lt_sq_of_nonneg_of_lt hd0 hlt
        exact h this
      simp [hnot]
    rw [hadj]

/-- C2: inside the closed spawn disk the sampler returns exactly 0.  Strictly
inside, the flat-zone early return fires without evaluating noise; on the
boundary circle the transition branch computes blend factor 0, so the flat
branch owns `< spawnRadius` and the transition owns `[spawnRadius,
spawnTransitionRadius)` with no double application. -/
theorem C2_spawn_flat (cfg : HeightConfig) (n : Noise)
    (hr : 0 ≤ cfg.spawnRadius) (hlt : cfg.spawnRadius < cfg.spawnTransitionRadius)
    (x z : ℝ) (hx : x * x + z * z ≤ cfg.spawnRadius * cfg.spawnRadius) :
    sampleHeight cfg n x z = 0 := by
  unfold sampleHeight
  by_cases h : x * x + z * z < cfg.spawnRadius * cfg.spawnRadius
  · simp [h]
  · have heq : x * x + z * z = cfg.spawnRadius * cfg.spawnRadius :=
      le_antisymm hx (not_lt.mp h)
    simp only [h, if_false]
    unfold transitionApply
    have hin : x * x + z * z < cfg.spawnTransitionRadius * cfg.spawnTransitionRadius := by
      rw [heq]; exact sq_lt_sq_of_nonneg_of_lt hr hlt
    simp only [hin, if_true]
    have hdist : Real.sqrt (x * x + z * z) = cfg.spawnRadius := by
      rw [heq, Real.sqrt_mul_self hr]
    rw [hdist]
    ring

/-- C2 witness at the concrete scenario config, sampling the origin. -/
theorem C2_spawn_flat_witness :
    ((0 : ℝ) ≤ 200 ∧ (200 : ℝ) < 2500 ∧ (0 : ℝ) * 0 + 0 * 0 ≤ 200 * 200) ∧
      sampleHeight ⟨4, 0.00007, 0.04, 0.001, 400, 200, 2500, 0, 50⟩ (fun _ _ => 0) 0 0 = 0 :=
  ⟨⟨by norm_num, by norm_num, by norm_num⟩,
    C2_spawn_flat ⟨4, 0.00007, 0.04, 0.001, 400, 200, 2500, 0, 50⟩ (fun _ _ => 0)
      (by norm_num) (by norm_num) 0 0 (by norm_num)⟩

/-- C8: before the spawn-transition multiplier the sampled height is
`baseHeight + detail + mountainHeight`, where with
`waterThreshold = waterLevel / baseHeightScale` the detail term is the full
`baseNoise * 0.5` above `waterThreshold + 0.5`, the additive-only linear fade
`max 0 baseNoise * 0.5 * (baseHeight - waterThreshold) / 0.5` on
`(waterThreshold, waterThreshold + 0.5]`, and 0 at or below `waterThreshold`;
the mountain contribution is added in every case. -/
theorem C8_detail_blend (cfg : HeightConfig) (n : Noise) (x z : ℝ) :
    (cfg.waterLevel / cfg.baseHeightScale + 0.5 < baseHeightOf cfg n x z →
      preTransitionHeight cfg n x z =
        baseHeightOf cfg n x z + baseNoiseOf cfg n x z * 0.5 + mountainHeightOf cfg n x z) ∧
    (cfg.waterLevel / cfg.baseHeightScale < baseHeightOf cfg n x z ∧
        baseHeightOf cfg n x z ≤ cfg.waterLevel / cfg.baseHeightScale + 0.5 →
      preTransitionHeight cfg n x z =
        baseHeightOf cfg n x z +
          max 0 (baseNoiseOf cfg n x z) * 0.5 *
            ((baseHeightOf cfg n x z - cfg.waterLevel / cfg.baseHeightScale) / 0.5) +
          mountainHeightOf cfg n x z) ∧
    (baseHeightOf cfg n x z ≤ cfg.waterLevel / cfg.baseHeightScale →
      preTransitionHeight cfg n x z =
        baseHeightOf cfg n x z + mountainHeightOf cfg n x z) := by
  have hbase : continentalOf cfg n x z * continentalMultiplier cfg = baseHeightOf cfg n x z := rfl
  have hmtn : mountainFrom cfg n x z (continentalOf cfg n x z) = mountainHeightOf cfg n x z := rfl
  refine ⟨fun h1 => ?_, fun h2 => ?_, fun h3 => ?_⟩ <;>
    simp only [preTransitionHeight, combineFrom, hbase, hmtn] <;>
    split_ifs with hA hB <;>
    first
      | ring1
      | (exfalso; rcases h2 with ⟨h2a, h2b⟩; linarith)
      | (exfalso; linarith)

end ThreeTerrain

namespace ThreeTerrain

/-- C8 witness: at the scenario config with constant noise 0.9 at (300, 0) the
base elevation is 12.5, which is safely above the water threshold, so the
full-detail case of the blend applies. -/
theorem C8_detail_blend_witness :
    cfgScenario.waterLevel / cfgScenario.baseHeightScale + 0.5 <
        baseHeightOf cfgScenario (fun _ _ => 0.9) 300 0 ∧
      preTransitionHeight cfgScenario (fun _ _ => 0.9) 300 0 =
        baseHeightOf cfgScenario (fun _ _ => 0.9) 300 0 +
          baseNoiseOf cfgScenario (fun _ _ => 0.9) 300 0 * 0.5 +
          mountainHeightOf cfgScenario (fun _ _ => 0.9) 300 0 := by
  have hC : continentalRaw cfgScenario (fun _ _ => 0.9) 300 0 = 1 := by
    simp only [continentalRaw, warpX, warpZ]
    norm_num
  have hAdj : continentalAdj cfgScenario (fun _ _ => 0.9) 300 0 = 1 := by
    simp only [continentalAdj, hC, max_eq_left (show (0.3 : ℝ) ≤ 1 by norm_num), ite_self]
  have hShore : continentalOf cfgScenario (fun _ _ => 0.9) 300 0 = 1 := by
    simp only [continentalOf, shapeShore, hAdj, msign]
    norm_num [abs_one, Real.one_rpow]
  have hb : baseHeightOf cfgScenario (fun _ _ => 0.9) 300 0 = 12.5 := by
    have hdef : baseHeightOf cfgScenario (fun _ _ => 0.9) 300 0 =
        continentalOf cfgScenario (fun _ _ => 0.9) 300 0 * continentalMultiplier cfgScenario := rfl
    rw [hdef, hShore, one_mul]
    simp only [continentalMultiplier, cfgScenario]
    norm_num
  refine ⟨?_, (C8_detail_blend cfgScenario (fun _ _ => 0.9) 300 0).1 ?_⟩ <;>
    · rw [hb]
      simp only [cfgScenario]
      norm_num

/-- C3 counterexample: the `getNormalizedHeight` of heightSampler.js has no
finiteness guard, so when the noise returns a non-finite value the sampler
returns a non-finite height (modelled as `none`) rather than 0. -/
theorem C3_no_guard_cex :
    getNormalizedHeightF (fun _ _ => none) tcScenario ⟨50⟩ 300 0 = none := by
  unfold getNormalizedHeightF
  rw [if_neg (by norm_num [tcScenario])]
  rfl

/-- C3 amended: only `createHeightSampler`'s `sampleHeight` (heightmap.js)
carries the non-finite guard: it always returns a finite number, and returns 0
exactly when the computed pipeline height is non-finite.
`createTerrainHelpers`' `getNormalizedHeight` (heightSampler.js) has no such
guard and can return a non-finite value. -/
theorem C3_heightmap_guard (cfg : HeightConfig) (n : NoiseF) (x z : ℝ) :
    (sampleHeightF cfg n x z).isSome = true ∧
      (sampleHeightPipeline cfg n x z = none → sampleHeightF cfg n x z = some 0) := by
  unfold sampleHeightF
  cases h : sampleHeightPipeline cfg n x z <;> simp

/-- C3 witness: with everywhere-non-finite noise outside the spawn zone the
heightmap.js pipeline is non-finite and the guard substitutes 0. -/
theorem C3_heightmap_guard_witness :
    sampleHeightPipeline cfgScenario (fun _ _ => none) 300 0 = none ∧
      sampleHeightF cfgScenario (fun _ _ => none) 300 0 = some 0 := by
  have hpipe : sampleHeightPipeline cfgScenario (fun _ _ => none) 300 0 = none := by
    unfold sampleHeightPipeline
    rw [if_neg (by norm_num [cfgScenario])]
    rfl
  exact ⟨hpipe, (C3_heightmap_guard cfgScenario (fun _ _ => none) 300 0).2 hpipe⟩

end ThreeTerrain

namespace ThreeTerrain

/-- C4 helper: when the viewer sits strictly beyond the split distance of a
node (and the split distance is nonnegative), `shouldSubdivide` is false. -/
theorem shouldSubdivide_far {cx cz s vx vz sf ms : ℝ}
    (hnn : 0 ≤ s * sf)
    (h1 : s * sf < Real.sqrt ((vx - cx) * (vx - cx) + (vz - cz) * (vz - cz))) :
    shouldSubdivide cx cz s vx vz sf ms = false := by
  simp only [shouldSubdivide]
  by_cases hs : s ≤ ms
  · rw [if_pos hs]
  · rw [if_neg hs]
    have hD : (0 : ℝ) ≤ (vx - cx) * (vx - cx) + (vz - cz) * (vz - cz) :=
      add_nonneg (mul_self_nonneg _) (mul_self_nonneg _)
    have hdd : Real.sqrt ((vx - cx) * (vx - cx) + (vz - cz) * (vz - cz)) *
        Real.sqrt ((vx - cx) * (vx - cx) + (vz - cz) * (vz - cz)) =
        (vx - cx) * (vx - cx) + (vz - cz) * (vz - cz) := Real.mul_self_sqrt hD
    have hchain : s * sf * (s * sf) <
        (vx - cx) * (vx - cx) + (vz - cz) * (vz - cz) := by
      rw [← hdd]; exact mul_self_lt_mul_self hnn h1
    simp only [decide_eq_false_iff_not]
    exact not_lt.mpr (le_of_lt hchain)

/-- C4 helper: when the viewer sits strictly inside the merge distance of a
node, `shouldMerge` is false. -/
theorem shouldMerge_near {cx cz s vx vz sf hy : ℝ}
    (h2 : Real.sqrt ((vx - cx) * (vx - cx) + (vz - cz) * (vz - cz)) < s * sf * hy) :
    shouldMerge cx cz s vx vz sf hy = false := by
  simp only [shouldMerge]
  have hD : (0 : ℝ) ≤ (vx - cx) * (vx - cx) + (vz - cz) * (vz - cz) :=
    add_nonneg (mul_self_nonneg _) (mul_self_nonneg _)
  have hdd : Real.sqrt ((vx - cx) * (vx - cx) + (vz - cz) * (vz - cz)) *
      Real.sqrt ((vx - cx) * (vx - cx) + (vz - cz) * (vz - cz)) =
      (vx - cx) * (vx - cx) + (vz - cz) * (vz - cz) := Real.mul_self_sqrt hD
  have hchain : (vx - cx) * (vx - cx) + (vz - cz) * (vz - cz) <
      s * sf * hy * (s * sf * hy) := by
    rw [← hdd]; exact mul_self_lt_mul_self (Real.sqrt_nonneg _) h2
  simp only [decide_eq_false_iff_not]
  exact not_lt.mpr (le_of_lt hchain)

/-- C4 helper: one `update` call on a node whose viewer distance lies strictly
in the hysteresis band preserves the node's geometry and leaf/subdivided
state. -/
theorem update_preserves_state (vx vz sf hy ms : ℝ) (fuel : ℕ) (u : QuadtreeNode ℝ)
    (hnn : 0 ≤ nodeSize u * sf)
    (h1 : nodeSize u * sf <
      Real.sqrt ((vx - nodeCenterX u) * (vx - nodeCenterX u) +
        (vz - nodeCenterZ u) * (vz - nodeCenterZ u)))
    (h2 : Real.sqrt ((vx - nodeCenterX u) * (vx - nodeCenterX u) +
        (vz - nodeCenterZ u) * (vz - nodeCenterZ u)) < nodeSize u * sf * hy) :
    isLeafNode (update fuel vx vz sf hy ms u) = isLeafNode u ∧
      nodeCenterX (update fuel vx vz sf hy ms u) = nodeCenterX u ∧
      nodeCenterZ (update fuel vx vz sf hy ms u) = nodeCenterZ u ∧
      nodeSize (update fuel vx vz sf hy ms u) = nodeSize u ∧
      nodeLod (update fuel vx vz sf hy ms u) = nodeLod u := by
  cases fuel with
  | zero =>
    exact ⟨rfl, rfl, rfl, rfl, rfl⟩
  | succ m =>
    cases u with
    | leaf cx cz s l =>
      have hf : shouldSubdivide cx cz s vx vz sf ms = false :=
        shouldSubdivide_far (by simpa [nodeSize] using hnn)
          (by simpa [nodeSize, nodeCenterX, nodeCenterZ] using h1)
      simp [update, hf, isLeafNode, nodeCenterX, nodeCenterZ, nodeSize, nodeLod]
    | branch cx cz s l a b c d =>
      have hf : shouldMerge cx cz s vx vz sf hy = false :=
        shouldMerge_near
          (by simpa [nodeSize, nodeCenterX, nodeCenterZ] using h2)
      simp [update, hf, isLeafNode, nodeCenterX, nodeCenterZ, nodeSize, nodeLod]

/-- C4: for a viewer whose distance to the node center lies strictly between
the split threshold `size * splitFactor` and the merge threshold
`size * splitFactor * hysteresis`, repeated `update` calls with the unchanged
viewer position leave the node's state unchanged: a leaf stays a leaf and a
subdivided node stays subdivided, with identical geometry. -/
theorem C4_hysteresis (vx vz sf hy ms : ℝ) (t : QuadtreeNode ℝ)
    (hnn : 0 ≤ nodeSize t * sf) (hhy : 1 < hy)
    (h1 : nodeSize t * sf <
      Real.sqrt ((vx - nodeCenterX t) * (vx - nodeCenterX t) +
        (vz - nodeCenterZ t) * (vz - nodeCenterZ t)))
    (h2 : Real.sqrt ((vx - nodeCenterX t) * (vx - nodeCenterX t) +
        (vz - nodeCenterZ t) * (vz - nodeCenterZ t)) < nodeSize t * sf * hy)
    (fuel k : ℕ) :
    isLeafNode ((update fuel vx vz sf hy ms)^[k] t) = isLeafNode t ∧
      nodeCenterX ((update fuel vx vz sf hy ms)^[k] t) = nodeCenterX t ∧
      nodeCenterZ ((update fuel vx vz sf hy ms)^[k] t) = nodeCenterZ t ∧
      nodeSize ((update fuel vx vz sf hy ms)^[k] t) = nodeSize t ∧
      nodeLod ((update fuel vx vz sf hy ms)^[k] t) = nodeLod t := by
  induction k with
  | zero => exact ⟨rfl, rfl, rfl, rfl, rfl⟩
  | succ k ih =>
    obtain ⟨hleaf, hcx, hcz, hsz, hlod⟩ := ih
    rw [Function.iterate_succ_apply']
    have hstep := update_preserves_state vx vz sf hy ms fuel
      ((update fuel vx vz sf hy ms)^[k] t)
      (by rw [hsz]; exact hnn) (by rw [hsz, hcx, hcz]; exact h1)
      (by rw [hsz, hcx, hcz]; exact h2)
    obtain ⟨g1, g2, g3, g4, g5⟩ := hstep
    exact ⟨g1.trans hleaf, g2.trans hcx, g3.trans hcz, g4.trans hsz, g5.trans hlod⟩

/-- C4 witness: a subdivided node of size 32 with splitFactor 2 and
hysteresis 2 at viewer distance 100 (between 64 and 128) stays subdivided
through two update calls. -/
theorem C4_hysteresis_witness :
    ((0 : ℝ) ≤ nodeSize qtWitnessNode * 2 ∧ (1 : ℝ) < 2 ∧
      nodeSize qtWitnessNode * 2 <
        Real.sqrt ((0 - nodeCenterX qtWitnessNode) * (0 - nodeCenterX qtWitnessNode) +
          (0 - nodeCenterZ qtWitnessNode) * (0 - nodeCenterZ qtWitnessNode)) ∧
      Real.sqrt ((0 - nodeCenterX qtWitnessNode) * (0 - nodeCenterX qtWitnessNode) +
          (0 - nodeCenterZ qtWitnessNode) * (0 - nodeCenterZ qtWitnessNode)) <
        nodeSize qtWitnessNode * 2 * 2) ∧
      isLeafNode ((update 3 0 0 2 2 32)^[2] qtWitnessNode) = isLeafNode qtWitnessNode := by
  have hx : nodeCenterX qtWitnessNode = 100 := rfl
  have hz : nodeCenterZ qtWitnessNode = 0 := rfl
  have hs : nodeSize qtWitnessNode = 32 := rfl
  have hsqrt : Real.sqrt ((0 - nodeCenterX qtWitnessNode) * (0 - nodeCenterX qtWitnessNode) +
      (0 - nodeCenterZ qtWitnessNode) * (0 - nodeCenterZ qtWitnessNode)) = 100 := by
    rw [hx, hz, show ((0 : ℝ) - 100) * ((0 : ℝ) - 100) + ((0 : ℝ) - 0) * ((0 : ℝ) - 0) =
      100 ^ 2 by norm_num, Real.sqrt_sq (by norm_num : (0 : ℝ) ≤ 100)]
  refine ⟨⟨?_, ?_, ?_, ?_⟩, ?_⟩
  · rw [hs]; norm_num
  · norm_num
  · rw [hsqrt, hs]; norm_num
  · rw [hsqrt, hs]; norm_num
  · exact (C4_hysteresis 0 0 2 2 32 qtWitnessNode (by rw [hs]; norm_num) (by norm_num)
      (by rw [hsqrt, hs]; norm_num) (by rw [hsqrt, hs]; norm_num) 3 2).1

end ThreeTerrain


namespace ThreeTerrain

/-- Vegetation helper: every mulberry32 output word fits in 32 bits. -/
theorem mulberry_out_lt (s : ℕ) : (mulberryNext s).2 < 2 ^ 32 := by
  have h32 : (0 : ℕ) < 2 ^ 32 := by norm_num
  have ht1 : mulberryT1 (mulberryS s) < 2 ^ 32 := Nat.mod_lt _ h32
  have ht2 : mulberryT2 (mulberryT1 (mulberryS s)) < 2 ^ 32 :=
    Nat.xor_lt_two_pow ht1 (Nat.mod_lt _ h32)
  have hshift : mulberryT2 (mulberryT1 (mulberryS s)) >>> 14 < 2 ^ 32 :=
    lt_of_le_of_lt
      (by rw [Nat.shiftRight_eq_div_pow]; exact Nat.div_le_self _ _) ht2
  exact Nat.xor_lt_two_pow ht2 hshift

/-- Vegetation helper: random draws lie in `[0, 1)`. -/
theorem randVal_bounds (s : ℕ) :
    0 ≤ randVal (mulberryNext s).2 ∧ randVal (mulberryNext s).2 < 1 := by
  constructor
  · exact div_nonneg (Nat.cast_nonneg _) (by norm_num)
  · rw [randVal, div_lt_one (by norm_num)]
    have := mulberry_out_lt s
    calc ((mulberryNext s).2 : ℝ) < ((2 ^ 32 : ℕ) : ℝ) := by exact_mod_cast this
      _ = 4294967296 := by norm_num

/-- Vegetation helper: the placement loop never grows the accumulated list
beyond `max acc.length count.toNat`. -/
theorem placeLoop_length_le (helpers : TerrainHelperFns) (config : VegTypeConfig)
    (minX minZ m s1 s2 : ℝ) (count : ℤ) (fuel : ℕ) :
    ∀ (rng : ℕ) (acc : List VegInstance),
      (placeLoop helpers config minX minZ m s1 s2 count fuel rng acc).length ≤
        max acc.length count.toNat := by
  induction fuel with
  | zero =>
    intro rng acc
    simp [placeLoop]
  | succ f ih =>
    intro rng acc
    simp only [placeLoop]
    split_ifs with hlen hheight hslope
    · exact (ih _ acc).trans (le_refl _)
    · exact (ih _ acc).trans (le_refl _)
    · refine (ih _ (acc ++ [_])).trans ?_
      have hlt : acc.length < count.toNat := Int.lt_toNat.mpr hlen
      rw [List.length_append]
      simp only [List.length_singleton]
      rw [max_eq_right (by omega)]
      exact le_max_right _ _
    · exact le_max_left _ _

/-- C9: for any cell the placement terminates within the `count * 10` attempt
fuel and yields at most `count` instances, where `count` comes from flooring
the jittered target (jitter in `[0.8, 1.2)`) and probabilistically adding 1
against the fractional remainder; an exhausted budget just yields the shorter
accumulated list, never an error. -/
theorem C9_attempt_budget (cellX cellZ : ℝ) (helpers : TerrainHelperFns)
    (config : VegTypeConfig) (typeIndex : ℤ) (m : ℝ) (hd : 0 ≤ config.density) :
    (0.8 ≤ cellJitterFactor cellX cellZ m typeIndex ∧
      cellJitterFactor cellX cellZ m typeIndex < 1.2) ∧
    (cellCountVal cellX cellZ m typeIndex config.density =
        ⌊cellTarget cellX cellZ m typeIndex config.density⌋ ∨
      cellCountVal cellX cellZ m typeIndex config.density =
        ⌊cellTarget cellX cellZ m typeIndex config.density⌋ + 1) ∧
    0 ≤ cellCountVal cellX cellZ m typeIndex config.density ∧
    ((generateCellVegetation cellX cellZ helpers config typeIndex m).length : ℤ) ≤
      cellCountVal cellX cellZ m typeIndex config.density := by
  obtain ⟨hr0, hr1⟩ := randVal_bounds (cellRng0 cellX cellZ m typeIndex)
  have hjit : 0.8 ≤ cellJitterFactor cellX cellZ m typeIndex ∧
      cellJitterFactor cellX cellZ m typeIndex < 1.2 := by
    unfold cellJitterFactor
    constructor
    · nlinarith
    · nlinarith
  have harea : (0 : ℝ) ≤ m * m / 1000000 :=
    div_nonneg (mul_self_nonneg m) (by norm_num)
  have hexp : 0 ≤ expectedCountOf config.density m := by
    unfold expectedCountOf
    split_ifs with h0
    · exact mul_nonneg (by norm_num) harea
    · exact mul_nonneg hd harea
  have htgt : 0 ≤ cellTarget cellX cellZ m typeIndex config.density := by
    unfold cellTarget
    exact mul_nonneg hexp (le_trans (by norm_num) hjit.1)
  have hfloor : 0 ≤ ⌊cellTarget cellX cellZ m typeIndex config.density⌋ :=
    Int.floor_nonneg.mpr htgt
  have hcount : 0 ≤ cellCountVal cellX cellZ m typeIndex config.density := by
    simp only [cellCountVal]
    split_ifs with h <;> omega
  refine ⟨hjit, ?_, hcount, ?_⟩
  · simp only [cellCountVal]
    split_ifs with h <;> omega
  · simp only [generateCellVegetation]
    split_ifs with hzero
    · simp [hzero]
    · have hloop := placeLoop_length_le helpers config (cellX - m / 2) (cellZ - m / 2) m
        (1 - config.slope.max) (1 - config.slope.min)
        (cellCountVal cellX cellZ m typeIndex config.density)
        ((cellCountVal cellX cellZ m typeIndex config.density * 10).toNat)
        ((mulberryNext (mulberryNext (cellRng0 cellX cellZ m typeIndex)).1).1) []
      simp only [List.length_nil, Nat.zero_le, max_eq_right (Nat.zero_le _)] at hloop
      calc ((placeLoop helpers config (cellX - m / 2) (cellZ - m / 2) m
            (1 - config.slope.max) (1 - config.slope.min)
            (cellCountVal cellX cellZ m typeIndex config.density)
            ((cellCountVal cellX cellZ m typeIndex config.density * 10).toNat)
            ((mulberryNext (mulberryNext (cellRng0 cellX cellZ m typeIndex)).1).1) []).length : ℤ)
          ≤ ((cellCountVal cellX cellZ m typeIndex config.density).toNat : ℤ) := by
            exact_mod_cast hloop
        _ = cellCountVal cellX cellZ m typeIndex config.density :=
            Int.toNat_of_nonneg hcount

/-- C9 witness: a zero-density configuration (hence nonnegative density) on a
32-unit cell. -/
theorem C9_attempt_budget_witness :
    (0 : ℝ) ≤ (VegTypeConfig.mk ⟨1, 2⟩ ⟨0, 1⟩ ⟨-10, 100⟩ 0).density ∧
      ((generateCellVegetation 16 16 ⟨fun _ _ => 0, fun _ _ => 1⟩
          (VegTypeConfig.mk ⟨1, 2⟩ ⟨0, 1⟩ ⟨-10, 100⟩ 0) 0 32).length : ℤ) ≤
        cellCountVal 16 16 32 0 (VegTypeConfig.mk ⟨1, 2⟩ ⟨0, 1⟩ ⟨-10, 100⟩ 0).density :=
  ⟨by norm_num,
    (C9_attempt_budget 16 16 ⟨fun _ _ => 0, fun _ _ => 1⟩
      (VegTypeConfig.mk ⟨1, 2⟩ ⟨0, 1⟩ ⟨-10, 100⟩ 0) 0 32 (by norm_num)).2.2.2⟩

end ThreeTerrain

namespace ThreeTerrain

/-- C6 helper: the floor of an integer plus one half. -/
theorem floor_add_half (g : ℤ) : ⌊(g : ℝ) + 1 / 2⌋ = g := by
  rw [add_comm, Int.floor_add_int]
  norm_num

/-- C6 helper: an aligned cell center divided by the cell size floors to its
grid coordinate. -/
theorem aligned_floor (m : ℝ) (hm : 0 < m) (g : ℤ) :
    ⌊((g : ℝ) + 0.5) * m / m⌋ = g := by
  rw [mul_div_assoc, div_self (ne_of_gt hm), mul_one,
    show (0.5 : ℝ) = 1 / 2 by norm_num, floor_add_half]

/-- C6 helper: a tile spanning `n` aligned cells enumerates `n` cells per
side (`Math.round(size / minTileSize)` is exact). -/
theorem cellsPerSide_eq (m : ℝ) (hm : 0 < m) (n : ℕ) :
    (jround ((n * m) / m)).toNat = n := by
  rw [jround, mul_div_assoc, div_self (ne_of_gt hm), mul_one,
    show ((n : ℝ) + 1 / 2) = ((n : ℤ) : ℝ) + 1 / 2 by push_cast; ring, floor_add_half]
  simp

/-- C6 helper: for a minTileSize-aligned tile the enumerated cell centers are
exactly the minTileSize-aligned cell centers falling within the tile bounds. -/
theorem mem_tileCellCenters (node : TileNode) (m : ℝ) (hm : 0 < m) (nCells : ℕ)
    (hsize : node.size = nCells * m) (kx kz : ℤ)
    (hkx : node.centerX - node.size / 2 = kx * m)
    (hkz : node.centerZ - node.size / 2 = kz * m) (cX cZ : ℝ) :
    (cX, cZ) ∈ tileCellCenters node m ↔
      ((∃ g : ℤ, cX = ((g : ℝ) + 0.5) * m) ∧ (∃ g : ℤ, cZ = ((g : ℝ) + 0.5) * m) ∧
        node.centerX - node.size / 2 ≤ cX ∧ cX ≤ node.centerX + node.size / 2 ∧
        node.centerZ - node.size / 2 ≤ cZ ∧ cZ ≤ node.centerZ + node.size / 2) := by
  have hcps : (jround (node.size / m)).toNat = nCells := by
    rw [hsize]; exact cellsPerSide_eq m hm nCells
  have hlist : tileCellCenters node m =
      (List.range nCells).flatMap fun (cx : ℕ) =>
        (List.range nCells).map fun (cz : ℕ) =>
          (node.centerX - node.size / 2 + ((cx : ℝ) + 0.5) * m,
            node.centerZ - node.size / 2 + ((cz : ℝ) + 0.5) * m) := by
    rw [tileCellCenters, hcps]
  rw [hlist]
  constructor
  · intro h
    rw [List.mem_flatMap] at h
    obtain ⟨cx, hcx, h⟩ := h
    rw [List.mem_map] at h
    obtain ⟨cz, hcz, heq⟩ := h
    rw [List.mem_range] at hcx hcz
    rw [Prod.mk.injEq] at heq
    obtain ⟨hx, hz⟩ := heq
    have hcxR : (cx : ℝ) + 1 ≤ nCells := by exact_mod_cast hcx
    have hczR : (cz : ℝ) + 1 ≤ nCells := by exact_mod_cast hcz
    have hcx0 : (0 : ℝ) ≤ (cx : ℝ) + 0.5 := by positivity
    have hcz0 : (0 : ℝ) ≤ (cz : ℝ) + 0.5 := by positivity
    refine ⟨⟨kx + cx, ?_⟩, ⟨kz + cz, ?_⟩, ?_, ?_, ?_, ?_⟩
    · rw [← hx, hkx]; push_cast; ring
    · rw [← hz, hkz]; push_cast; ring
    · rw [← hx]
      have : (0 : ℝ) ≤ ((cx : ℝ) + 0.5) * m := mul_nonneg hcx0 hm.le
      linarith
    · rw [← hx]
      have hle : ((cx : ℝ) + 0.5) * m ≤ (nCells : ℝ) * m :=
        mul_le_mul_of_nonneg_right (by linarith) hm.le
      have hsz : (nCells : ℝ) * m = node.size := hsize.symm
      linarith
    · rw [← hz]
      have : (0 : ℝ) ≤ ((cz : ℝ) + 0.5) * m := mul_nonneg hcz0 hm.le
      linarith
    · rw [← hz]
      have hle : ((cz : ℝ) + 0.5) * m ≤ (nCells : ℝ) * m :=
        mul_le_mul_of_nonneg_right (by linarith) hm.le
      have hsz : (nCells : ℝ) * m = node.size := hsize.symm
      linarith
  · rintro ⟨⟨gx, hgx⟩, ⟨gz, hgz⟩, hb1, hb2, hb3, hb4⟩
    have hxlow : (kx : ℝ) ≤ (gx : ℝ) + 0.5 := by
      have h1 : (kx : ℝ) * m ≤ ((gx : ℝ) + 0.5) * m := by rw [← hkx, ← hgx]; exact hb1
      exact (mul_le_mul_right hm).mp h1
    have hxhigh : (gx : ℝ) + 0.5 ≤ (kx : ℝ) + nCells := by
      have hEnd : node.centerX + node.size / 2 = ((kx : ℝ) + nCells) * m := by
        have hsplit : node.centerX + node.size / 2 =
            (node.centerX - node.size / 2) + node.size := by ring
        rw [hsplit, hkx, hsize]; ring
      have h2 : ((gx : ℝ) + 0.5) * m ≤ ((kx : ℝ) + nCells) * m := by
        rw [← hEnd, ← hgx]; exact hb2
      exact (mul_le_mul_right hm).mp h2
    have hzlow : (kz : ℝ) ≤ (gz : ℝ) + 0.5 := by
      have h1 : (kz : ℝ) * m ≤ ((gz : ℝ) + 0.5) * m := by rw [← hkz, ← hgz]; exact hb3
      exact (mul_le_mul_right hm).mp h1
    have hzhigh : (gz : ℝ) + 0.5 ≤ (kz : ℝ) + nCells := by
      have hEnd : node.centerZ + node.size / 2 = ((kz : ℝ) + nCells) * m := by
        have hsplit : node.centerZ + node.size / 2 =
            (node.centerZ - node.size / 2) + node.size := by ring
        rw [hsplit, hkz, hsize]; ring
      have h2 : ((gz : ℝ) + 0.5) * m ≤ ((kz : ℝ) + nCells) * m := by
        rw [← hEnd, ← hgz]; exact hb4
      exact (mul_le_mul_right hm).mp h2
    have hkgx : kx ≤ gx := by
      by_contra hcon
      push_neg at hcon
      have : (gx : ℝ) + 1 ≤ kx := by exact_mod_cast hcon
      linarith
    have hglx : gx < kx + (nCells : ℤ) := by
      have : (gx : ℝ) < (kx : ℝ) + (nCells : ℝ) := by linarith
      exact_mod_cast this
    have hkgz : kz ≤ gz := by
      by_contra hcon
      push_neg at hcon
      have : (gz : ℝ) + 1 ≤ kz := by exact_mod_cast hcon
      linarith
    have hglz : gz < kz + (nCells : ℤ) := by
      have : (gz : ℝ) < (kz : ℝ) + (nCells : ℝ) := by linarith
      exact_mod_cast this
    have hcastx : (((gx - kx).toNat : ℕ) : ℝ) = (gx : ℝ) - kx := by
      have h := Int.toNat_of_nonneg (by omega : (0 : ℤ) ≤ gx - kx)
      exact_mod_cast h
    have hcastz : (((gz - kz).toNat : ℕ) : ℝ) = (gz : ℝ) - kz := by
      have h := Int.toNat_of_nonneg (by omega : (0 : ℤ) ≤ gz - kz)
      exact_mod_cast h
    rw [List.mem_flatMap]
    refine ⟨(gx - kx).toNat, List.mem_range.mpr (by omega), ?_⟩
    rw [List.mem_map]
    refine ⟨(gz - kz).toNat, List.mem_range.mpr (by omega), ?_⟩
    rw [Prod.mk.injEq]
    constructor
    · rw [hkx, hgx, hcastx]; ring
    · rw [hkz, hgz, hcastz]; ring

/-- C6: the per-cell vegetation list of an aligned cell is a pure function of
the cell grid coordinates and type index; a tile's list is the concatenation
of the per-cell lists over exactly the minTileSize-aligned cells whose centers
fall within the tile bounds; and the result is independent of the tile's LOD
level (the `lodLevel` parameter has no effect). -/
theorem C6_vegetation_determinism (node : TileNode) (helpers : TerrainHelperFns)
    (config : VegTypeConfig) (typeIndex : ℤ) (m : ℝ) (hm : 0 < m) (nCells : ℕ)
    (hsize : node.size = nCells * m) (kx kz : ℤ)
    (hkx : node.centerX - node.size / 2 = kx * m)
    (hkz : node.centerZ - node.size / 2 = kz * m) :
    (∀ l1 l2 : ℤ, generateVegetationForType node helpers l1 config typeIndex m =
        generateVegetationForType node helpers l2 config typeIndex m) ∧
    (∀ l : ℤ, generateVegetationForType node helpers l config typeIndex m =
        (tileCellCenters node m).flatMap fun c =>
          generateCellVegetation c.1 c.2 helpers config typeIndex m) ∧
    (∀ cX cZ : ℝ, (cX, cZ) ∈ tileCellCenters node m ↔
      ((∃ g : ℤ, cX = ((g : ℝ) + 0.5) * m) ∧ (∃ g : ℤ, cZ = ((g : ℝ) + 0.5) * m) ∧
        node.centerX - node.size / 2 ≤ cX ∧ cX ≤ node.centerX + node.size / 2 ∧
        node.centerZ - node.size / 2 ≤ cZ ∧ cZ ≤ node.centerZ + node.size / 2)) ∧
    (∀ cX cZ cX2 cZ2 : ℝ,
      (cX, cZ) ∈ tileCellCenters node m → (cX2, cZ2) ∈ tileCellCenters node m →
      ⌊cX / m⌋ = ⌊cX2 / m⌋ → ⌊cZ / m⌋ = ⌊cZ2 / m⌋ →
      generateCellVegetation cX cZ helpers config typeIndex m =
        generateCellVegetation cX2 cZ2 helpers config typeIndex m) := by
  refine ⟨fun _ _ => rfl, fun _ => rfl,
    fun cX cZ => mem_tileCellCenters node m hm nCells hsize kx kz hkx hkz cX cZ, ?_⟩
  intro cX cZ cX2 cZ2 h1 h2 hfx hfz
  obtain ⟨⟨gx, hgx⟩, ⟨gz, hgz⟩, -⟩ :=
    (mem_tileCellCenters node m hm nCells hsize kx kz hkx hkz cX cZ).mp h1
  obtain ⟨⟨gx2, hgx2⟩, ⟨gz2, hgz2⟩, -⟩ :=
    (mem_tileCellCenters node m hm nCells hsize kx kz hkx hkz cX2 cZ2).mp h2
  have hgfx : gx = gx2 := by
    have e1 : ⌊cX / m⌋ = gx := by rw [hgx]; exact aligned_floor m hm gx
    have e2 : ⌊cX2 / m⌋ = gx2 := by rw [hgx2]; exact aligned_floor m hm gx2
    rw [e1, e2] at hfx; exact hfx
  have hgfz : gz = gz2 := by
    have e1 : ⌊cZ / m⌋ = gz := by rw [hgz]; exact aligned_floor m hm gz
    have e2 : ⌊cZ2 / m⌋ = gz2 := by rw [hgz2]; exact aligned_floor m hm gz2
    rw [e1, e2] at hfz; exact hfz
  rw [hgx, hgz, hgx2, hgz2, hgfx, hgfz]

/-- C6 witness: a single-cell tile (size 32 = 1 cell of 32) aligned at the
origin, compared across LOD labels 0 and 5. -/
theorem C6_vegetation_determinism_witness :
    ((0 : ℝ) < 32 ∧ (TileNode.mk 16 16 32).size = (1 : ℕ) * 32 ∧
      (TileNode.mk 16 16 32).centerX - (TileNode.mk 16 16 32).size / 2 = (0 : ℤ) * 32 ∧
      (TileNode.mk 16 16 32).centerZ - (TileNode.mk 16 16 32).size / 2 = (0 : ℤ) * 32) ∧
    generateVegetationForType (TileNode.mk 16 16 32) ⟨fun _ _ => 0, fun _ _ => 1⟩ 0
        (VegTypeConfig.mk ⟨1, 2⟩ ⟨0, 1⟩ ⟨-10, 100⟩ 0) 0 32 =
      generateVegetationForType (TileNode.mk 16 16 32) ⟨fun _ _ => 0, fun _ _ => 1⟩ 5
        (VegTypeConfig.mk ⟨1, 2⟩ ⟨0, 1⟩ ⟨-10, 100⟩ 0) 0 32 :=
  ⟨⟨by norm_num, by norm_num, by norm_num, by norm_num⟩,
    (C6_vegetation_determinism (TileNode.mk 16 16 32) ⟨fun _ _ => 0, fun _ _ => 1⟩
      (VegTypeConfig.mk ⟨1, 2⟩ ⟨0, 1⟩ ⟨-10, 100⟩ 0) 0 32 (by norm_num) 1 (by norm_num)
      0 0 (by norm_num) (by norm_num)).1 0 5⟩

end ThreeTerrain

namespace ThreeTerrain

/-- C1: a vertex flagged for stitching with neighbor step `s` emits
`baseHeightScale` times the linear interpolation of the height field between
the bracketing coarse-grid coordinates `x0 = floor(w/s)*s` and `x1 = x0 + s`
along the stitched axis, with weight `t = (w - x0)/s`; when the world
coordinate coincides with a coarse-grid coordinate the emitted height equals
the directly sampled height there — exactly what an unstitched (coarser
neighbor) vertex at that world point emits. -/
theorem C1_stitched_height {K : Type} [LinearOrderedField K] [FloorRing K]
    (H : K → K → K) (bhs : K) (t : TileSpec K) (segments : ℕ)
    (edge : EdgeStitchInfo K) (i j : ℕ) (s : K) (hs : 0 < s) :
    (stitchFor edge segments i j = some (s, StitchAxis.x) →
      (vertexHeight H bhs t segments edge i j =
        bhs * (H ((⌊vertexWorldX t segments i / s⌋ : K) * s) (vertexWorldZ t segments j) *
            (1 - (vertexWorldX t segments i - (⌊vertexWorldX t segments i / s⌋ : K) * s) / s) +
          H ((⌊vertexWorldX t segments i / s⌋ : K) * s + s) (vertexWorldZ t segments j) *
            ((vertexWorldX t segments i - (⌊vertexWorldX t segments i / s⌋ : K) * s) / s)) ∧
      ∀ g : ℤ, vertexWorldX t segments i = (g : K) * s →
        vertexHeight H bhs t segments edge i j =
          bhs * H (vertexWorldX t segments i) (vertexWorldZ t segments j))) ∧
    (stitchFor edge segments i j = some (s, StitchAxis.z) →
      (vertexHeight H bhs t segments edge i j =
        bhs * (H (vertexWorldX t segments i) ((⌊vertexWorldZ t segments j / s⌋ : K) * s) *
            (1 - (vertexWorldZ t segments j - (⌊vertexWorldZ t segments j / s⌋ : K) * s) / s) +
          H (vertexWorldX t segments i) ((⌊vertexWorldZ t segments j / s⌋ : K) * s + s) *
            ((vertexWorldZ t segments j - (⌊vertexWorldZ t segments j / s⌋ : K) * s) / s)) ∧
      ∀ g : ℤ, vertexWorldZ t segments j = (g : K) * s →
        vertexHeight H bhs t segments edge i j =
          bhs * H (vertexWorldX t segments i) (vertexWorldZ t segments j))) ∧
    (stitchFor edge segments i j = none →
      vertexHeight H bhs t segments edge i j =
        bhs * H (vertexWorldX t segments i) (vertexWorldZ t segments j)) := by
  have hs0 : s ≠ 0 := ne_of_gt hs
  refine ⟨fun hst => ⟨?_, ?_⟩, fun hst => ⟨?_, ?_⟩, fun hst => ?_⟩
  · rw [vertexHeight, hst]
    simp only [getStitchedHeight]
    ring
  · intro g hg
    rw [vertexHeight, hst]
    simp only [getStitchedHeight]
    have hdiv : vertexWorldX t segments i / s = (g : K) := by
      rw [hg, mul_div_assoc, div_self hs0, mul_one]
    rw [hdiv, Int.floor_intCast, ← hg]
    rw [sub_self, zero_div]
    ring
  · rw [vertexHeight, hst]
    simp only [getStitchedHeight]
    ring
  · intro g hg
    rw [vertexHeight, hst]
    simp only [getStitchedHeight]
    have hdiv : vertexWorldZ t segments j / s = (g : K) := by
      rw [hg, mul_div_assoc, div_self hs0, mul_one]
    rw [hdiv, Int.floor_intCast, ← hg]
    rw [sub_self, zero_div]
    ring
  · rw [vertexHeight, hst]
    ring

/-- C1 witness: a south-edge vertex stitched with step 1 on a 2-segment tile
whose world X coordinate sits on the coarse grid, with a linear height field. -/
theorem C1_stitched_height_witness :
    ((0 : ℚ) < 1 ∧
      stitchFor edgeWitness 2 1 0 = some (1, StitchAxis.x) ∧
      vertexWorldX (TileSpec.mk (1 : ℚ) 1 2) 2 1 = ((1 : ℤ) : ℚ) * 1) ∧
    vertexHeight linH 3 (TileSpec.mk (1 : ℚ) 1 2) 2 edgeWitness 1 0 =
      3 * linH (vertexWorldX (TileSpec.mk (1 : ℚ) 1 2) 2 1)
        (vertexWorldZ (TileSpec.mk (1 : ℚ) 1 2) 2 0) := by
  have hst : stitchFor edgeWitness 2 1 0 = some (1, StitchAxis.x) := by decide
  have hwx : vertexWorldX (TileSpec.mk (1 : ℚ) 1 2) 2 1 = ((1 : ℤ) : ℚ) * 1 := by
    norm_num [vertexWorldX, tileOriginX, tileStep]
  exact ⟨⟨by norm_num, hst, hwx⟩,
    ((C1_stitched_height linH 3 (TileSpec.mk (1 : ℚ) 1 2) 2 edgeWitness 1 0 1
      (by norm_num)).1 hst).2 1 hwx⟩

end ThreeTerrain

namespace ThreeTerrain

section WaterMesh

variable {K : Type} [LinearOrderedField K] [FloorRing K]

/-- C5 helper: the `hasWater` flag is set exactly when some grid vertex lies
strictly below the water level. -/
theorem tileHasWater_iff (H : K → K → K) (bhs : K) (t : TileSpec K) (segments : ℕ)
    (edge : EdgeStitchInfo K) (waterLevel : K) :
    tileHasWater H bhs t segments edge waterLevel = true ↔
      ∃ i j : ℕ, i ≤ segments ∧ j ≤ segments ∧
        vertexHeight H bhs t segments edge i j < waterLevel := by
  simp only [tileHasWater, List.any_eq_true, List.mem_range, Nat.lt_succ_iff,
    decide_eq_true_eq]
  constructor
  · rintro ⟨j, hj, i, hi, hlt⟩
    exact ⟨i, j, hi, hj, hlt⟩
  · rintro ⟨i, j, hi, hj, hlt⟩
    exact ⟨j, hj, i, hi, hlt⟩

/-- C5 helper: a vertex has positive water depth exactly when its height is
strictly below the water level. -/
theorem depthAt_pos_iff (H : K → K → K) (bhs : K) (t : TileSpec K) (segments : ℕ)
    (edge : EdgeStitchInfo K) (waterLevel : K) (i j : ℕ) :
    0 < depthAt H bhs t segments edge waterLevel i j ↔
      vertexHeight H bhs t segments edge i j < waterLevel := by
  simp only [depthAt]
  split_ifs with h
  · exact ⟨fun _ => h, fun _ => sub_pos.mpr h⟩
  · exact ⟨fun hc => absurd hc (lt_irrefl 0), fun hc => absurd hc h⟩

/-- C5 helper: a submerged vertex makes the water index buffer nonempty
(every vertex of a tile with at least one quad belongs to some quad). -/
theorem waterIndices_length_pos (H : K → K → K) (bhs : K) (t : TileSpec K) (segments : ℕ)
    (edge : EdgeStitchInfo K) (waterLevel : K) (hseg : 1 ≤ segments) (i0 j0 : ℕ)
    (hi0 : i0 ≤ segments) (hj0 : j0 ≤ segments)
    (hwet : vertexHeight H bhs t segments edge i0 j0 < waterLevel) :
    0 < (waterIndices H bhs t segments edge waterLevel).length := by
  have hd : 0 < depthAt H bhs t segments edge waterLevel i0 j0 :=
    (depthAt_pos_iff H bhs t segments edge waterLevel i0 j0).mpr hwet
  by_cases hi : i0 = segments <;> by_cases hj : j0 = segments
  · rw [hi, hj] at hd
    have hcorner : segments - 1 + 1 = segments := by omega
    have hwq : wetQuad H bhs t segments edge waterLevel (segments - 1) (segments - 1) = true := by
      simp only [wetQuad, Bool.or_eq_true, decide_eq_true_eq]
      rw [hcorner]
      exact Or.inr hd
    apply List.length_pos.mpr
    apply List.ne_nil_of_mem (a := vIndex segments (segments - 1) (segments - 1))
    rw [waterIndices, List.mem_flatMap]
    refine ⟨segments - 1, List.mem_range.mpr (by omega), ?_⟩
    rw [List.mem_flatMap]
    refine ⟨segments - 1, List.mem_range.mpr (by omega), ?_⟩
    rw [if_pos hwq]
    simp [quadTriangles]
  · rw [hi] at hd
    have hcorner : segments - 1 + 1 = segments := by omega
    have hwq : wetQuad H bhs t segments edge waterLevel (segments - 1) j0 = true := by
      simp only [wetQuad, Bool.or_eq_true, decide_eq_true_eq]
      rw [hcorner]
      exact Or.inl (Or.inl (Or.inr hd))
    apply List.length_pos.mpr
    apply List.ne_nil_of_mem (a := vIndex segments (segments - 1) j0)
    rw [waterIndices, List.mem_flatMap]
    refine ⟨j0, List.mem_range.mpr (by omega), ?_⟩
    rw [List.mem_flatMap]
    refine ⟨segments - 1, List.mem_range.mpr (by omega), ?_⟩
    rw [if_pos hwq]
    simp [quadTriangles]
  · rw [hj] at hd
    have hcorner : segments - 1 + 1 = segments := by omega
    have hwq : wetQuad H bhs t segments edge waterLevel i0 (segments - 1) = true := by
      simp only [wetQuad, Bool.or_eq_true, decide_eq_true_eq]
      rw [hcorner]
      exact Or.inl (Or.inr hd)
    apply List.length_pos.mpr
    apply List.ne_nil_of_mem (a := vIndex segments i0 (segments - 1))
    rw [waterIndices, List.mem_flatMap]
    refine ⟨segments - 1, List.mem_range.mpr (by omega), ?_⟩
    rw [List.mem_flatMap]
    refine ⟨i0, List.mem_range.mpr (by omega), ?_⟩
    rw [if_pos hwq]
    simp [quadTriangles]
  · have hwq : wetQuad H bhs t segments edge waterLevel i0 j0 = true := by
      simp only [wetQuad, Bool.or_eq_true, decide_eq_true_eq]
      exact Or.inl (Or.inl (Or.inl hd))
    apply List.length_pos.mpr
    apply List.ne_nil_of_mem (a := vIndex segments i0 j0)
    rw [waterIndices, List.mem_flatMap]
    refine ⟨j0, List.mem_range.mpr (by omega), ?_⟩
    rw [List.mem_flatMap]
    refine ⟨i0, List.mem_range.mpr (by omega), ?_⟩
    rw [if_pos hwq]
    simp [quadTriangles]

/-- C5: the tile mesh builder returns a null water geometry exactly when no
grid vertex lies strictly below the water level; when produced, the water
index buffer holds exactly the two triangles of every grid quad with at least
one positive-depth corner, and depth is positive exactly below water level. -/
theorem C5_water_emptiness (H : K → K → K) (bhs : K) (t : TileSpec K) (segments : ℕ)
    (edge : EdgeStitchInfo K) (waterLevel : K) (hseg : 1 ≤ segments) :
    (waterGeometry H bhs t segments edge waterLevel = none ↔
      ∀ i j : ℕ, i ≤ segments → j ≤ segments →
        waterLevel ≤ vertexHeight H bhs t segments edge i j) ∧
    (∀ g : List ℕ, waterGeometry H bhs t segments edge waterLevel = some g →
      g = (List.range segments).flatMap fun j =>
        (List.range segments).flatMap fun i =>
          if wetQuad H bhs t segments edge waterLevel i j then quadTriangles segments i j
          else []) ∧
    (∀ i j : ℕ, 0 < depthAt H bhs t segments edge waterLevel i j ↔
      vertexHeight H bhs t segments edge i j < waterLevel) := by
  refine ⟨?_, ?_, fun i j => depthAt_pos_iff H bhs t segments edge waterLevel i j⟩
  · simp only [waterGeometry]
    by_cases hw : tileHasWater H bhs t segments edge waterLevel = true
    · rw [if_pos hw]
      obtain ⟨i0, j0, hi0, hj0, hwet⟩ :=
        (tileHasWater_iff H bhs t segments edge waterLevel).mp hw
      have hlen := waterIndices_length_pos H bhs t segments edge waterLevel hseg
        i0 j0 hi0 hj0 hwet
      rw [if_pos hlen]
      constructor
      · intro hc
        exact absurd hc (Option.some_ne_none _)
      · intro hall
        exact absurd hwet (not_lt.mpr (hall i0 j0 hi0 hj0))
    · rw [if_neg hw]
      constructor
      · intro _ i j hi hj
        by_contra hlt
        push_neg at hlt
        exact hw ((tileHasWater_iff H bhs t segments edge waterLevel).mpr
          ⟨i, j, hi, hj, hlt⟩)
      · intro _
        rfl
  · intro g hg
    simp only [waterGeometry] at hg
    split_ifs at hg with h1 h2
    injection hg with h
    rw [← h]
    rfl

end WaterMesh

/-- C5 witness: a fully submerged single-quad tile (constant height -1,
water level 0) produces a non-null water geometry. -/
theorem C5_water_emptiness_witness :
    1 ≤ 1 ∧
    (waterGeometry (fun _ _ => (-1 : ℚ)) 1 (TileSpec.mk (1 / 2 : ℚ) (1 / 2) 1) 1
        edgeNoneQ 0 = none ↔
      ∀ i j : ℕ, i ≤ 1 → j ≤ 1 →
        (0 : ℚ) ≤ vertexHeight (fun _ _ => (-1 : ℚ)) 1 (TileSpec.mk (1 / 2 : ℚ) (1 / 2) 1) 1
          edgeNoneQ i j) :=
  ⟨le_refl 1,
    (C5_water_emptiness (fun _ _ => (-1 : ℚ)) 1 (TileSpec.mk (1 / 2 : ℚ) (1 / 2) 1) 1
      edgeNoneQ 0 (le_refl 1)).1⟩

end ThreeTerrain

namespace ThreeTerrain

section NormalPass

variable {K : Type} [LinearOrderedField K] [FloorRing K]

/-- C7 helper: a vertex on no stitched edge gets no stitch entry. -/
theorem stitchFor_none (edge : EdgeStitchInfo K) (segments i j : ℕ)
    (h1 : i = 0 → edge.west.needsStitch = false)
    (h2 : i = segments → edge.east.needsStitch = false)
    (h3 : j = 0 → edge.south.needsStitch = false)
    (h4 : j = segments → edge.north.needsStitch = false) :
    stitchFor edge segments i j = none := by
  rw [stitchFor, if_neg, if_neg, if_neg, if_neg]
  · rintro ⟨hj, hfl⟩
    rw [h4 hj] at hfl
    exact Bool.false_ne_true hfl
  · rintro ⟨hj, hfl⟩
    rw [h3 hj] at hfl
    exact Bool.false_ne_true hfl
  · rintro ⟨hi, hfl⟩
    rw [h2 hi] at hfl
    exact Bool.false_ne_true hfl
  · rintro ⟨hi, hfl⟩
    rw [h1 hi] at hfl
    exact Bool.false_ne_true hfl

/-- C7 helper: the cached height of an unstitched vertex is the direct
height-field sample. -/
theorem heightCacheVal_direct (H : K → K → K) (bhs : K) (t : TileSpec K) (segments : ℕ)
    (edge : EdgeStitchInfo K) (i j : ℕ) (hnone : stitchFor edge segments i j = none) :
    heightCacheVal H bhs t segments edge i j =
      H (vertexWorldX t segments i) (vertexWorldZ t segments j) := by
  rw [heightCacheVal, hnone]

/-- C7 helper: stepping one column right adds one grid step in world space. -/
theorem vertexWorldX_succ (t : TileSpec K) (segments i : ℕ) :
    vertexWorldX t segments (i + 1) = vertexWorldX t segments i + tileStep t segments := by
  simp only [vertexWorldX]
  push_cast
  ring

/-- C7 helper: stepping one column left subtracts one grid step. -/
theorem vertexWorldX_pred (t : TileSpec K) (segments i : ℕ) (hi : 1 ≤ i) :
    vertexWorldX t segments (i - 1) = vertexWorldX t segments i - tileStep t segments := by
  simp only [vertexWorldX]
  rw [Nat.cast_sub hi]
  push_cast
  ring

/-- C7 helper: stepping one row up adds one grid step. -/
theorem vertexWorldZ_succ (t : TileSpec K) (segments j : ℕ) :
    vertexWorldZ t segments (j + 1) = vertexWorldZ t segments j + tileStep t segments := by
  simp only [vertexWorldZ]
  push_cast
  ring

/-- C7 helper: stepping one row down subtracts one grid step. -/
theorem vertexWorldZ_pred (t : TileSpec K) (segments j : ℕ) (hj : 1 ≤ j) :
    vertexWorldZ t segments (j - 1) = vertexWorldZ t segments j - tileStep t segments := by
  simp only [vertexWorldZ]
  rw [Nat.cast_sub hj]
  push_cast
  ring

end NormalPass

end ThreeTerrain

namespace ThreeTerrain

/-- C7 counterexample: two adjacent unstitched leaf tiles at different LOD
(grid steps 1 and 2) share the boundary vertex at world position (2, 2), yet
their mesh builds compute different normals there: the central difference uses
`dx = 2 * step`, and the step differs with the LOD.  With height field
`x ^ 3` the fine tile computes `dhdx = 13` and the coarse tile `dhdx = 16`. -/
theorem C7_normal_mismatch_cex :
    vertexWorldX (TileSpec.mk (1 : ℝ) 1 2) 2 2 = vertexWorldX (TileSpec.mk (4 : ℝ) 2 4) 2 0 ∧
    vertexWorldZ (TileSpec.mk (1 : ℝ) 1 2) 2 2 = vertexWorldZ (TileSpec.mk (4 : ℝ) 2 4) 2 1 ∧
    normalAt cubeH 1 (TileSpec.mk (1 : ℝ) 1 2) 2 edgeNoneR 2 2 ≠
      normalAt cubeH 1 (TileSpec.mk (4 : ℝ) 2 4) 2 edgeNoneR 0 1 := by
  have hgF : gradAt cubeH 1 (TileSpec.mk (1 : ℝ) 1 2) 2 edgeNoneR 2 2 = (13, 0) := by
    norm_num [gradAt, normalPairX, normalPairZ, heightCacheVal, stitchFor, edgeNoneR,
      vertexWorldX, vertexWorldZ, tileOriginX, tileOriginZ, tileStep, cubeH]
  have hgC : gradAt cubeH 1 (TileSpec.mk (4 : ℝ) 2 4) 2 edgeNoneR 0 1 = (16, 0) := by
    norm_num [gradAt, normalPairX, normalPairZ, heightCacheVal, stitchFor, edgeNoneR,
      vertexWorldX, vertexWorldZ, tileOriginX, tileOriginZ, tileStep, cubeH]
  refine ⟨?_, ?_, ?_⟩
  · norm_num [vertexWorldX, tileOriginX, tileStep]
  · norm_num [vertexWorldZ, tileOriginZ, tileStep]
  · intro h
    simp only [normalAt, hgF, hgC] at h
    norm_num [Prod.mk.injEq] at h

end ThreeTerrain

namespace ThreeTerrain

/-- C7 amended: for two adjacent tiles sharing a boundary vertex at the same
world position, with the SAME grid step and no stitching flagged on the edges
meeting that vertex (the shared east/west edge and the south/north edges), the
per-vertex normals computed by the two mesh builds coincide: each side takes
its central difference from direct height-field samples one grid step across
the tile edge in world space. -/
theorem C7_normal_continuity_amended (H : ℝ → ℝ → ℝ) (bhs s : ℝ)
    (tA tB : TileSpec ℝ) (segA segB jA jB : ℕ) (edgeA edgeB : EdgeStitchInfo ℝ)
    (hsa : tileStep tA segA = s) (hsb : tileStep tB segB = s)
    (hja1 : 0 < jA) (hja2 : jA < segA) (hjb1 : 0 < jB) (hjb2 : jB < segB)
    (hwx : vertexWorldX tA segA segA = vertexWorldX tB segB 0)
    (hwz : vertexWorldZ tA segA jA = vertexWorldZ tB segB jB)
    (hAe : edgeA.east.needsStitch = false)
    (hAs : edgeA.south.needsStitch = false)
    (hAn : edgeA.north.needsStitch = false)
    (hBw : edgeB.west.needsStitch = false)
    (hBs : edgeB.south.needsStitch = false)
    (hBn : edgeB.north.needsStitch = false) :
    normalAt H bhs tA segA edgeA segA jA = normalAt H bhs tB segB edgeB 0 jB := by
  have hA2 : 2 ≤ segA := by omega
  have hB2 : 2 ≤ segB := by omega
  have hxA : normalPairX H bhs tA segA edgeA segA jA =
      (H (vertexWorldX tA segA segA - s) (vertexWorldZ tA segA jA) * bhs,
        H (vertexWorldX tA segA segA + s) (vertexWorldZ tA segA jA) * bhs) := by
    rw [normalPairX, if_neg (by omega : ¬ segA = 0), if_pos rfl]
    have hn : stitchFor edgeA segA (segA - 1) jA = none :=
      stitchFor_none edgeA segA (segA - 1) jA (fun h => absurd h (by omega))
        (fun h => absurd h (by omega)) (fun h => absurd h (by omega))
        (fun h => absurd h (by omega))
    rw [heightCacheVal_direct H bhs tA segA edgeA (segA - 1) jA hn,
      vertexWorldX_pred tA segA segA (by omega), hsa]
  have hzA : normalPairZ H bhs tA segA edgeA segA jA =
      (H (vertexWorldX tA segA segA) (vertexWorldZ tA segA jA - s) * bhs,
        H (vertexWorldX tA segA segA) (vertexWorldZ tA segA jA + s) * bhs) := by
    rw [normalPairZ, if_neg (by omega : ¬ jA = 0), if_neg (by omega : ¬ jA = segA)]
    have hn1 : stitchFor edgeA segA segA (jA - 1) = none :=
      stitchFor_none edgeA segA segA (jA - 1) (fun h => absurd h (by omega))
        (fun _ => hAe) (fun _ => hAs) (fun h => absurd h (by omega))
    have hn2 : stitchFor edgeA segA segA (jA + 1) = none :=
      stitchFor_none edgeA segA segA (jA + 1) (fun h => absurd h (by omega))
        (fun _ => hAe) (fun h => absurd h (by omega)) (fun _ => hAn)
    rw [heightCacheVal_direct H bhs tA segA edgeA segA (jA - 1) hn1,
      heightCacheVal_direct H bhs tA segA edgeA segA (jA + 1) hn2,
      vertexWorldZ_pred tA segA jA (by omega), vertexWorldZ_succ tA segA jA, hsa]
  have hxB : normalPairX H bhs tB segB edgeB 0 jB =
      (H (vertexWorldX tB segB 0 - s) (vertexWorldZ tB segB jB) * bhs,
        H (vertexWorldX tB segB 0 + s) (vertexWorldZ tB segB jB) * bhs) := by
    rw [normalPairX, if_pos rfl]
    have hn : stitchFor edgeB segB (0 + 1) jB = none :=
      stitchFor_none edgeB segB (0 + 1) jB (fun h => absurd h (by omega))
        (fun h => absurd h (by omega)) (fun h => absurd h (by omega))
        (fun h => absurd h (by omega))
    rw [heightCacheVal_direct H bhs tB segB edgeB (0 + 1) jB hn,
      vertexWorldX_succ tB segB 0, hsb]
  have hzB : normalPairZ H bhs tB segB edgeB 0 jB =
      (H (vertexWorldX tB segB 0) (vertexWorldZ tB segB jB - s) * bhs,
        H (vertexWorldX tB segB 0) (vertexWorldZ tB segB jB + s) * bhs) := by
    rw [normalPairZ, if_neg (by omega : ¬ jB = 0), if_neg (by omega : ¬ jB = segB)]
    have hn1 : stitchFor edgeB segB 0 (jB - 1) = none :=
      stitchFor_none edgeB segB 0 (jB - 1) (fun _ => hBw)
        (fun h => absurd h (by omega)) (fun _ => hBs) (fun h => absurd h (by omega))
    have hn2 : stitchFor edgeB segB 0 (jB + 1) = none :=
      stitchFor_none edgeB segB 0 (jB + 1) (fun _ => hBw)
        (fun h => absurd h (by omega)) (fun h => absurd h (by omega)) (fun _ => hBn)
    rw [heightCacheVal_direct H bhs tB segB edgeB 0 (jB - 1) hn1,
      heightCacheVal_direct H bhs tB segB edgeB 0 (jB + 1) hn2,
      vertexWorldZ_pred tB segB jB (by omega), vertexWorldZ_succ tB segB jB, hsb]
  have hgrad : gradAt H bhs tA segA edgeA segA jA = gradAt H bhs tB segB edgeB 0 jB := by
    rw [gradAt, gradAt, hxA, hxB, hzA, hzB, hsa, hsb, hwx, hwz]
  rw [normalAt, normalAt, hgrad]

/-- C7 amended witness: two same-step (step 1) adjacent tiles sharing the
boundary vertex at world position (2, 1), with no stitching flagged. -/
theorem C7_normal_continuity_amended_witness :
    (tileStep (TileSpec.mk (1 : ℝ) 1 2) 2 = 1 ∧ tileStep (TileSpec.mk (3 : ℝ) 1 2) 2 = 1 ∧
      (0 : ℕ) < 1 ∧ (1 : ℕ) < 2 ∧
      vertexWorldX (TileSpec.mk (1 : ℝ) 1 2) 2 2 = vertexWorldX (TileSpec.mk (3 : ℝ) 1 2) 2 0 ∧
      vertexWorldZ (TileSpec.mk (1 : ℝ) 1 2) 2 1 = vertexWorldZ (TileSpec.mk (3 : ℝ) 1 2) 2 1 ∧
      edgeNoneR.east.needsStitch = false ∧ edgeNoneR.south.needsStitch = false ∧
      edgeNoneR.north.needsStitch = false ∧ edgeNoneR.west.needsStitch = false) ∧
    normalAt cubeH 1 (TileSpec.mk (1 : ℝ) 1 2) 2 edgeNoneR 2 1 =
      normalAt cubeH 1 (TileSpec.mk (3 : ℝ) 1 2) 2 edgeNoneR 0 1 := by
  have h1 : tileStep (TileSpec.mk (1 : ℝ) 1 2) 2 = 1 := by norm_num [tileStep]
  have h2 : tileStep (TileSpec.mk (3 : ℝ) 1 2) 2 = 1 := by norm_num [tileStep]
  have hwx : vertexWorldX (TileSpec.mk (1 : ℝ) 1 2) 2 2 =
      vertexWorldX (TileSpec.mk (3 : ℝ) 1 2) 2 0 := by
    norm_num [vertexWorldX, tileOriginX, tileStep]
  have hwz : vertexWorldZ (TileSpec.mk (1 : ℝ) 1 2) 2 1 =
      vertexWorldZ (TileSpec.mk (3 : ℝ) 1 2) 2 1 := by
    norm_num [vertexWorldZ, tileOriginZ, tileStep]
  exact ⟨⟨h1, h2, by norm_num, by norm_num, hwx, hwz, rfl, rfl, rfl, rfl⟩,
    C7_normal_continuity_amended cubeH 1 1 (TileSpec.mk (1 : ℝ) 1 2)
      (TileSpec.mk (3 : ℝ) 1 2) 2 2 1 1 edgeNoneR edgeNoneR h1 h2 (by norm_num)
      (by norm_num) (by norm_num) (by norm_num) hwx hwz rfl rfl rfl rfl rfl rfl⟩

end ThreeTerrain
